import Mathlib

/-!
Shallow embedding of the WorkHoursNormalizer core components
(attendance parser, variation generator, PDF page-structure analysis)
together with theorems settling the frozen specification claims.

Numbers are modelled as rationals: the Python code computes on floats,
but every claim at stake concerns identities at 2-decimal precision, for
which the rational model is exact.  Python's `round` (banker's rounding)
is modelled by `pyRound`.  Randomized jitters (`random.randint(-k, k)`
draws) are passed to the embedded functions as explicit integer
arguments, following the spec's own requirement of an injectable random
source.
-/

namespace WorkHours

/-- Python's `round` on a rational: round half to even, to an integer. -/
def pyRound (q : ℚ) : ℤ :=
  let f : ℤ := ⌊q⌋
  let r : ℚ := q - f
  if r < 1/2 then f
  else if 1/2 < r then f + 1
  else if 2 ∣ f then f else f + 1

/-- Python's `round(x, 2)`. -/
def round2 (q : ℚ) : ℚ := (pyRound (q * 100) : ℚ) / 100

/-- Python's `round(x, 1)`. -/
def round1 (q : ℚ) : ℚ := (pyRound (q * 10) : ℚ) / 10

/-- Whitespace as recognized by Python's `str.strip` / the regex class
`\s` (ASCII whitespace plus NEL and NBSP; the exotic Unicode space
characters do not occur in the modelled inputs). -/
def pyIsSpace (c : Char) : Bool :=
  c.toNat = 32 ∨ c.toNat = 9 ∨ c.toNat = 10 ∨ c.toNat = 11 ∨ c.toNat = 12 ∨
  c.toNat = 13 ∨ c.toNat = 28 ∨ c.toNat = 29 ∨ c.toNat = 30 ∨ c.toNat = 31 ∨
  c.toNat = 133 ∨ c.toNat = 160

/-- Numeric value of a digit character. -/
def charVal (c : Char) : Nat := c.toNat - 48

/-- Shared validity check of `datetime.strptime(_, "%H:%M")`:
hour at most 23, minute at most 59. -/
def parseHMduo (h m : Nat) : Option (Nat × Nat) :=
  if h ≤ 23 ∧ m ≤ 59 then some (h, m) else none

/-- `datetime.strptime(s, "%H:%M")` on a character list: one or two
digits of hours, a colon, one or two digits of minutes, nothing else. -/
def parseHMList : List Char → Option (Nat × Nat)
  | [a, c, b] =>
      if a.isDigit ∧ (c = ':') ∧ b.isDigit then
        parseHMduo (charVal a) (charVal b)
      else none
  | [a, b, c, d] =>
      if a.isDigit ∧ (b = ':') ∧ c.isDigit ∧ d.isDigit then
        parseHMduo (charVal a) (10 * charVal c + charVal d)
      else if a.isDigit ∧ b.isDigit ∧ (c = ':') ∧ d.isDigit then
        parseHMduo (10 * charVal a + charVal b) (charVal d)
      else none
  | [a, b, c, d, e] =>
      if a.isDigit ∧ b.isDigit ∧ (c = ':') ∧ d.isDigit ∧ e.isDigit then
        parseHMduo (10 * charVal a + charVal b) (10 * charVal d + charVal e)
      else none
  | _ => none

/-- `datetime.strptime(s, "%H:%M")`, returning the (hour, minute) pair,
or `none` where Python raises `ValueError`. -/
def parseHM (s : String) : Option (Nat × Nat) := parseHMList s.toList

/-- Character of a decimal digit. -/
def digitChar (n : Nat) : Char := Char.ofNat (48 + n)

/-- Two-digit zero-padded rendering (as in `strftime("%H")`). -/
def pad2 (n : Nat) : List Char := [digitChar (n / 10), digitChar (n % 10)]

/-- `datetime.strftime(_, "%H:%M")`. -/
def formatHM (h m : Nat) : String := String.mk (pad2 h ++ [':'] ++ pad2 m)

/-!  Python `float()` literal parsing, as used by `_safe_float`. -/

/-- One digit group of a Python float literal, with the PEP 515
underscore rule (single underscores between digits); returns the value
and the number of digit characters.  Invoked on a list that starts with
a digit. -/
def udGo (acc len : Nat) : List Char → Option (Nat × Nat)
  | [] => some (acc, len)
  | c :: cs =>
      if c.isDigit then udGo (10 * acc + charVal c) (len + 1) cs
      else if c = '_' then
        match cs with
        | d :: cs2 =>
            if d.isDigit then udGo (10 * acc + charVal d) (len + 1) cs2 else none
        | [] => none
      else none

/-- A digit group (value, digit count): nonempty, starts with a digit. -/
def udVal : List Char → Option (Nat × Nat)
  | [] => none
  | c :: cs => if c.isDigit then udGo (charVal c) 1 cs else none

/-- Split at the first character satisfying `p`: returns the prefix and,
when found, the suffix after that character. -/
def splitFirst (p : Char → Bool) : List Char → List Char × Option (List Char)
  | [] => ([], none)
  | c :: cs =>
      if p c then ([], some cs)
      else
        let r := splitFirst p cs
        (c :: r.1, r.2)

/-- A natural number as a rational, via `mkRat` (definitionally cheap,
equal to the numeral cast). -/
def qOfNat (n : Nat) : ℚ := mkRat (Int.ofNat n) 1

/-- Mantissa of a Python float literal (after sign): digits, optionally
a dot with optional fractional digits, or a dot with digits. -/
def pyMantissa (l : List Char) : Option ℚ :=
  match splitFirst (fun c => c = '.') l with
  | (intp, none) => (udVal intp).map (fun v => qOfNat v.1)
  | (intp, some frac) =>
      match intp, frac with
      | [], [] => none
      | [], _ =>
          (udVal frac).map (fun v => qOfNat v.1 / qOfNat (10 ^ v.2))
      | _, [] => (udVal intp).map (fun v => qOfNat v.1)
      | _, _ => do
          let i ← udVal intp
          let f ← udVal frac
          pure (qOfNat i.1 + qOfNat f.1 / qOfNat (10 ^ f.2))

/-- Optional leading sign: returns the sign factor and the rest. -/
def pySign : List Char → ℚ × List Char
  | c :: cs => if c = '+' then (1, cs) else if c = '-' then (-1, cs) else (1, c :: cs)
  | [] => (1, [])

/-- Python `float(s)` on an already comma/space-free string, as a
rational.  `inf`/`nan` literals have no rational value and are mapped to
`none` (they never arise from the numeric tokens this program parses). -/
def pyFloat (l0 : List Char) : Option ℚ :=
  let l1 := (l0.dropWhile pyIsSpace).reverse.dropWhile pyIsSpace |>.reverse
  let (sgn, l2) := pySign l1
  if l2 = [] then none
  else
    match splitFirst (fun c => c = 'e' ∨ c = 'E') l2 with
    | (mant, none) => (pyMantissa mant).map (fun q => sgn * q)
    | (mant, some ex) => do
        let q ← pyMantissa mant
        let (esgn, ed) := pySign ex
        let e ← udVal ed
        pure (if esgn = 1 then sgn * q * qOfNat (10 ^ e.1)
          else sgn * q / qOfNat (10 ^ e.1))

/-- `AttendanceParser._safe_float`: empty input gives the default 0.0;
otherwise commas and spaces are removed and the result of `float()` is
returned, with conversion failures giving the default 0.0. -/
def safeFloat (s : String) : ℚ :=
  if s = "" then 0
  else
    match pyFloat (s.toList.filter (fun c => ¬(c = ',' ∨ c = ' '))) with
    | some q => q
    | none => 0

/-!  The parser's flexible regular expressions (`FlexiblePatterns`),
hand-compiled to scanning matchers with Python `re` semantics
(leftmost match, greedy bounded repetition, non-overlapping `findall`).
Each matcher returns the length of the match anchored at the head of the
list, or `none`. -/

/-- Length of the leading digit run. -/
def countDigits : List Char → Nat
  | [] => 0
  | c :: cs => if c.isDigit then countDigits cs + 1 else 0

/-- The `[\/\.\-]` separator class of the date pattern. -/
def isSep (c : Char) : Bool := c = '/' ∨ c = '.' ∨ c = '-'

/-- Tail `[\/\.\-]\d{2,4}` of the date pattern (greedy). -/
def dateTail : List Char → Option Nat
  | c :: rest =>
      if isSep c then
        let r := countDigits rest
        if r ≥ 2 then some (1 + min r 4) else none
      else none
  | [] => none

/-- Middle `[\/\.\-]\d{1,2}` of the date pattern followed by `dateTail`.
The greedy two-digit month needs no backtracking: with a single digit
taken, the next character is the second digit, never a separator. -/
def dateMid : List Char → Option Nat
  | c :: rest =>
      if isSep c then
        match rest with
        | a :: b :: r2 =>
            if a.isDigit then
              if b.isDigit then (dateTail r2).map (fun k => 3 + k)
              else (dateTail (b :: r2)).map (fun k => 2 + k)
            else none
        | _ => none
      else none
  | [] => none

/-- `FlexiblePatterns.DATE = (\d{1,2}[\/\.\-]\d{1,2}[\/\.\-]\d{2,4})`
anchored at the head. -/
def matchDateFrom (l : List Char) : Option Nat :=
  match l with
  | a :: b :: rest =>
      if a.isDigit then
        if b.isDigit then (dateMid rest).map (fun k => 2 + k)
        else (dateMid (b :: rest)).map (fun k => 1 + k)
      else none
  | _ => none

/-- `:\d{2}` tail of the time pattern. -/
def colonMM : List Char → Option Nat
  | c :: d1 :: d2 :: _ =>
      if (c = ':') ∧ d1.isDigit ∧ d2.isDigit then some 3 else none
  | _ => none

/-- `FlexiblePatterns.TIME = (\d{1,2}:\d{2})` anchored at the head.
With two leading digits the colon must follow immediately (falling back
to one digit would put the second digit where the colon is required). -/
def matchTimeFrom (l : List Char) : Option Nat :=
  match l with
  | a :: b :: rest =>
      if a.isDigit then
        if b.isDigit then (colonMM rest).map (fun k => 2 + k)
        else (colonMM (b :: rest)).map (fun k => 1 + k)
      else none
  | _ => none

/-- `FlexiblePatterns.DECIMAL = ([\d]+\.[\d]{1,2})` anchored at the
head: the maximal digit run, a dot, then one or two digits (greedy). -/
def matchDecimalFrom (l : List Char) : Option Nat :=
  let r := countDigits l
  if r = 0 then none
  else
    match l.drop r with
    | c :: rest =>
        if c = '.' then
          let r2 := countDigits rest
          if r2 = 0 then none else some (r + 1 + min r2 2)
        else none
    | [] => none

/-- The scanning loop of `re.findall`, structurally recursive on a fuel
bound: every step consumes at least one character, so fuel equal to the
list length suffices. -/
def scanAllGo (m : List Char → Option Nat) : Nat → List Char → List (List Char)
  | 0, _ => []
  | _, [] => []
  | fuel + 1, c :: cs =>
      match m (c :: cs) with
      | some (k + 1) => (c :: cs).take (k + 1) :: scanAllGo m fuel (cs.drop k)
      | _ => scanAllGo m fuel cs

/-- `re.findall` of an anchored matcher: scan left to right, taking
non-overlapping matches. -/
def scanAll (m : List Char → Option Nat) (l : List Char) : List (List Char) :=
  scanAllGo m l.length l

/-- `re.search` of an anchored matcher: the leftmost match. -/
def searchFirst (m : List Char → Option Nat) : List Char → Option (List Char)
  | [] => none
  | c :: cs =>
      match m (c :: cs) with
      | some k => some ((c :: cs).take k)
      | none => searchFirst m cs

/-!  `AttendanceParser._clean_text` and the derived line list. -/

/-- Collapse runs satisfying `p` to a single `rep` character
(the `re.sub(r"[ \t]+", " ", _)` step).  The flag tracks whether the
previous character was part of a run. -/
def collapseRun (p : Char → Bool) (rep : Char) : List Char → Bool → List Char
  | [], _ => []
  | c :: cs, inRun =>
      if p c then
        if inRun then collapseRun p rep cs true
        else rep :: collapseRun p rep cs true
      else c :: collapseRun p rep cs false

/-- The `re.sub(r"\n{3,}", "\n\n", _)` step: keep the first two newlines
of every newline run, where `k` counts the newlines already seen in the
current run. -/
def collapseNl3 : List Char → Nat → List Char
  | [], _ => []
  | c :: cs, k =>
      if c = '\n' then
        if k ≥ 2 then collapseNl3 cs (k + 1)
        else '\n' :: collapseNl3 cs (k + 1)
      else c :: collapseNl3 cs 0

/-- Python `str.strip()`. -/
def pyStrip (l : List Char) : List Char :=
  ((l.dropWhile pyIsSpace).reverse.dropWhile pyIsSpace).reverse

/-- `AttendanceParser._clean_text`: normalize CR, BOM, NBSP and Hebrew
quote marks (gershayim U+05F4 to `"`, geresh U+05F3 to `'`), collapse
horizontal whitespace, collapse long newline runs, strip. -/
def cleanText (s : String) : String :=
  let l0 := s.toList.map (fun c => if c = '\r' then ' ' else c)
  let l1 := l0.filter (fun c => c.toNat ≠ 0xFEFF)
  let l2 := l1.map (fun c => if c.toNat = 0xa0 then ' ' else c)
  let l3 := l2.map (fun c => if c.toNat = 0x5F4 then '"' else c)
  let l4 := l3.map (fun c => if c.toNat = 0x5F3 then Char.ofNat 39 else c)
  let l5 := collapseRun (fun c => c = ' ' ∨ c = '\t') ' ' l4 false
  let l6 := collapseNl3 l5 0
  String.mk (pyStrip l6)

/-- Split a character list on a separator character (Python
`str.split(sep)`: empty pieces are kept). -/
def splitOnChar (sep : Char) : List Char → List (List Char)
  | [] => [[]]
  | c :: cs =>
      let r := splitOnChar sep cs
      if c = sep then [] :: r
      else
        match r with
        | [] => [[c]]
        | h :: t => (c :: h) :: t

/-- The parser's line list: split the cleaned text on newlines, strip
each line, drop empty lines. -/
def linesOf (s : String) : List String :=
  ((splitOnChar '\n' s.toList).map (fun l => String.mk (pyStrip l))).filter
    (fun x => x ≠ "")

/-- Python `str.split()` (split on whitespace runs, no empties). -/
def splitWs (l : List Char) : List (List Char) :=
  (splitOnChar ' ' (l.map (fun c => if pyIsSpace c then ' ' else c))).filter
    (fun w => w ≠ [])

/-!  `AttendanceParser._identify_template` and its keyword scoring. -/

/-- Report template types. -/
inductive TemplateType
  | SIMPLE
  | DETAILED
  | UNKNOWN
deriving DecidableEq, Repr

/-- Case-insensitive matching is realized by lowering the text
(`re.IGNORECASE` only affects the ASCII keywords here). -/
def lowerList (l : List Char) : List Char := l.map Char.toLower

/-- Substring test on character lists. -/
def infixHelp (pat : List Char) : List Char → Bool
  | [] => pat.isEmpty
  | c :: cs => pat.isPrefixOf (c :: cs) || infixHelp pat cs

/-- Substring test for a literal keyword pattern. -/
def infixOf (pat : String) (l : List Char) : Bool := infixHelp pat.toList l

/-- 1 when true. -/
def boolNat (b : Bool) : Nat := if b then 1 else 0

/-- Number of `FlexiblePatterns.DETAILED_KEYWORDS` patterns found in the
text (case-insensitively).  The last pattern is the character class
alternation `בע[״"']מ`. -/
def detailedCount (text : String) : Nat :=
  let l := lowerList text.toList
  boolNat (infixOf ("125%") l) + boolNat (infixOf ("150%") l) +
  boolNat (infixOf ("שבת") l) + boolNat (infixOf ("הפסקה") l) +
  boolNat (infixOf ("break") l) + boolNat (infixOf ("מקום") l) +
  boolNat (infixOf ("location") l) + boolNat (infixOf ("נ.ב") l) +
  boolNat (infixOf ("בע״מ") l ∨ infixOf ("בע\"מ") l ∨ infixOf ("בע'מ") l)

/-- Number of `FlexiblePatterns.SIMPLE_KEYWORDS` patterns found in the
text (case-insensitively). -/
def simpleCount (text : String) : Nat :=
  let l := lowerList text.toList
  boolNat (infixOf ("כניסה") l) + boolNat (infixOf ("יציאה") l) +
  boolNat (infixOf ("התחלה") l) + boolNat (infixOf ("סיום") l) +
  boolNat (infixOf ("start") l) + boolNat (infixOf ("end") l) +
  boolNat (infixOf ("entry") l) + boolNat (infixOf ("exit") l)

/-- `AttendanceParser._estimate_column_count`: over the first 20 lines,
the maximum of dates + times + decimals + min(words, 3), where words are
the whitespace-separated tokens longer than one character. -/
def estimateColumnCount (lines : List String) : Nat :=
  (lines.take 20).foldl
    (fun mx line =>
      let l := line.toList
      let dates := (scanAll matchDateFrom l).length
      let times := (scanAll matchTimeFrom l).length
      let decimals := (scanAll matchDecimalFrom l).length
      let words := ((splitWs l).filter (fun w => w.length > 1)).length
      max mx (dates + times + decimals + min words 3))
    0

/-- `AttendanceParser._identify_template` on the cleaned text and its
line list. -/
def identifyTemplateCore (text : String) (lines : List String) : TemplateType :=
  let dc := detailedCount text
  let sc := simpleCount text
  let cc := estimateColumnCount lines
  if dc ≥ 3 ∨ cc ≥ 10 then TemplateType.DETAILED
  else if sc ≥ 2 ∨ (5 ≤ cc ∧ cc ≤ 7) then TemplateType.SIMPLE
  else
    match (lines.take 30).findSome? (fun line =>
        let ts := (scanAll matchTimeFrom line.toList).length
        let ds := (scanAll matchDecimalFrom line.toList).length
        if ts ≥ 2 ∧ ds ≥ 4 then some TemplateType.DETAILED
        else if ts ≥ 2 ∧ ds ≥ 1 then some TemplateType.SIMPLE
        else none) with
    | some t => t
    | none => TemplateType.UNKNOWN

/-- Template identification as seen from raw input text: the parser's
constructor cleans the text and builds the line list first. -/
def identifyTemplate (raw : String) : TemplateType :=
  let t := cleanText raw
  identifyTemplateCore t (linesOf t)

/-!  `AttendanceParser._extract_metadata`: the labeled metadata patterns,
hand-compiled with Python `re.search` semantics (leftmost match,
alternatives in order).  The numeric-field patterns carry
`re.IGNORECASE` and are therefore matched against the lowered line; the
company-name patterns are case-sensitive. -/

/-- Truthiness of an optional number (Python: `None` and `0.0` are
falsy). -/
def qTruthy : Option ℚ → Bool
  | some v => if v = 0 then false else true
  | none => false

/-- Truthiness of an optional string (Python: `None` and `""` are
falsy). -/
def sTruthy : Option String → Bool
  | some s => if s = "" then false else true
  | none => false

/-- Match a literal, returning the remainder. -/
def litP (pat : String) (l : List Char) : Option (List Char) :=
  if pat.toList.isPrefixOf l then some (l.drop pat.toList.length) else none

/-- Greedy `\s*`. -/
def skipWs (l : List Char) : List Char := l.dropWhile pyIsSpace

/-- The `["']` character class (straight double or single quote; the
gershayim of the raw pattern was normalized away by `_clean_text`, but
the class is kept faithful to the source pattern). -/
def quoteClass : List Char → Option (List Char)
  | c :: cs => if c.toNat = 34 ∨ c.toNat = 39 ∨ c.toNat = 0x5F4 then some cs else none
  | [] => none

/-- Greedy `[:\s]*`. -/
def skipColonWs (l : List Char) : List Char :=
  l.dropWhile (fun c => c = ':' ∨ pyIsSpace c)

/-- Capture `([\d.]+)`. -/
def captureDigitsDots (l : List Char) : Option (List Char) :=
  let run := l.takeWhile (fun c => c.isDigit ∨ c = '.')
  if run = [] then none else some run

/-- Capture `(\d+)`. -/
def captureDigits (l : List Char) : Option (List Char) :=
  let run := l.takeWhile Char.isDigit
  if run = [] then none else some run

/-- Capture `([\d,]+\.?\d*)`. -/
def captureSalaryGroup (l : List Char) : Option (List Char) :=
  let r1 := l.takeWhile (fun c => c.isDigit ∨ c = ',')
  if r1 = [] then none
  else
    match l.drop r1.length with
    | c :: cs =>
        if c = '.' then some (r1 ++ c :: cs.takeWhile Char.isDigit) else some r1
    | [] => some r1

/-- Optional `[₪$]?` (₪ is U+20AA). -/
def optCurrency (l : List Char) : List Char :=
  match l with
  | c :: cs => if c.toNat = 0x20AA ∨ c = '$' then cs else l
  | [] => l

/-- The label alternation of the `total_hours` pattern
`(?:סה["']כ\s*שעות|Total\s*Hours|סך\s*הכל\s*שעות)`. -/
def altTotalHours (l : List Char) : Option (List Char) :=
  (do
    let r1 ← litP ("סה") l
    let r2 ← quoteClass r1
    let r3 ← litP ("כ") r2
    litP ("שעות") (skipWs r3)) <|>
  (do
    let r1 ← litP ("total") l
    litP ("hours") (skipWs r1)) <|>
  (do
    let r1 ← litP ("סך") l
    let r2 ← litP ("הכל") (skipWs r1)
    litP ("שעות") (skipWs r2))

/-- `total_hours` pattern 1 anchored at the head. -/
def matchTHAt (l : List Char) : Option (List Char) :=
  (altTotalHours l).bind (fun r => captureDigitsDots (skipColonWs r))

/-- `total_hours` fallback pattern `(?:ימים|Days)[:\s]*(\d+)` anchored
at the head. -/
def matchDaysAt (l : List Char) : Option (List Char) :=
  ((litP ("ימים") l) <|> (litP ("days") l)).bind
    (fun r => captureDigits (skipColonWs r))

/-- The label alternation of `total_salary` pattern 1
`(?:סה["']כ\s*לתשלום|Total|סך\s*לתשלום)`. -/
def altSalary (l : List Char) : Option (List Char) :=
  (do
    let r1 ← litP ("סה") l
    let r2 ← quoteClass r1
    let r3 ← litP ("כ") r2
    litP ("לתשלום") (skipWs r3)) <|>
  litP ("total") l <|>
  (do
    let r1 ← litP ("סך") l
    litP ("לתשלום") (skipWs r1))

/-- `total_salary` pattern 1 anchored at the head. -/
def matchSalAt (l : List Char) : Option (List Char) :=
  (altSalary l).bind (fun r =>
    captureSalaryGroup (skipWs (optCurrency (skipColonWs r))))

/-- `total_salary` pattern 2 `[₪$]\s*([\d,]+\.?\d*)` anchored at the
head. -/
def matchSal2At (l : List Char) : Option (List Char) :=
  match l with
  | c :: cs =>
      if c.toNat = 0x20AA ∨ c = '$' then captureSalaryGroup (skipWs cs) else none
  | [] => none

/-- The label alternation of the `hourly_rate` pattern
`(?:מחיר\s*לשעה|Hourly\s*Rate|תעריף)`. -/
def altRate (l : List Char) : Option (List Char) :=
  (do
    let r1 ← litP ("מחיר") l
    litP ("לשעה") (skipWs r1)) <|>
  (do
    let r1 ← litP ("hourly") l
    litP ("rate") (skipWs r1)) <|>
  litP ("תעריף") l

/-- `hourly_rate` pattern anchored at the head. -/
def matchRateAt (l : List Char) : Option (List Char) :=
  (altRate l).bind (fun r =>
    captureDigitsDots (skipWs (optCurrency (skipColonWs r))))

/-- The label alternation of the `required_hours` pattern
`(?:שעות\s*עבודה\s*למשרה|Required\s*Hours|שעות\s*נדרשות)`. -/
def altRequired (l : List Char) : Option (List Char) :=
  (do
    let r1 ← litP ("שעות") l
    let r2 ← litP ("עבודה") (skipWs r1)
    litP ("למשרה") (skipWs r2)) <|>
  (do
    let r1 ← litP ("required") l
    litP ("hours") (skipWs r1)) <|>
  (do
    let r1 ← litP ("שעות") l
    litP ("נדרשות") (skipWs r1))

/-- `required_hours` pattern anchored at the head. -/
def matchReqAt (l : List Char) : Option (List Char) :=
  (altRequired l).bind (fun r => captureDigitsDots (skipColonWs r))

/-- `re.search` at every start position for a capture-producing
matcher. -/
def searchCap (m : List Char → Option (List Char)) : List Char → Option (List Char)
  | [] => none
  | c :: cs =>
      match m (c :: cs) with
      | some cap => some cap
      | none => searchCap m cs

/-- First `k < n` for which `f k` succeeds, in ascending order (the
backtracking order of a lazy `.*?`). -/
def firstSome (n : Nat) (f : Nat → Option α) : Option α :=
  (List.range n).findSome? f

/-- `.` of the company patterns (any character except newline). -/
def nonNl (c : Char) : Bool := ¬(c = '\n')

/-- The trailing `(?:\n|\s{3,})` of the company patterns, matched at the
head of `l`. -/
def companyTerm (l : List Char) : Bool :=
  match l with
  | c :: cs =>
      (c = '\n') ||
      (pyIsSpace c &&
        match cs with
        | c2 :: c3 :: _ => pyIsSpace c2 && pyIsSpace c3
        | _ => false)
  | [] => false

/-- The marker `בע["'״]מ` of company pattern 1 (ב U+05D1, ע U+05E2,
a quote, מ U+05DE), anchored at the head; returns the matched length. -/
def xmBavam (l : List Char) : Option Nat :=
  match l with
  | a :: b :: c :: d :: _ =>
      if a.toNat = 0x5D1 ∧ b.toNat = 0x5E2 ∧
         (c.toNat = 0x5F4 ∨ c.toNat = 34 ∨ c.toNat = 39) ∧ d.toNat = 0x5DE then
        some 4
      else none
  | _ => none

/-- The marker `Ltd\.` of company pattern 2 (case-sensitive). -/
def xmLtd (l : List Char) : Option Nat :=
  if ("Ltd.").toList.isPrefixOf l then some 4 else none

/-- A company pattern `(.*?X.*?)(?:\n|\s{3,})` anchored at one start
position: lazy dot-stars try shorter extents first; group 1 is
returned. -/
def companyMatchAt (xm : List Char → Option Nat) (l : List Char) :
    Option (List Char) :=
  firstSome (l.length + 1) (fun a =>
    if (l.take a).all nonNl then
      match xm (l.drop a) with
      | some k =>
          let after := l.drop (a + k)
          firstSome (after.length + 1) (fun b =>
            if (after.take b).all nonNl ∧ companyTerm (after.drop b) then
              some (l.take (a + k + b))
            else none)
      | none => none
    else none)

/-- `ReportMetadata` (the dataclass). -/
structure ReportMetadata where
  employee_name : Option String
  employee_id : Option String
  company_name : Option String
  month : Option String
  year : Option String
  total_hours : Option ℚ
  total_salary : Option ℚ
  hourly_rate : Option ℚ
  required_hours : Option ℚ
  template_type : TemplateType
  top_table_rows : List String
deriving DecidableEq, Repr

/-- A fresh `ReportMetadata()`. -/
def emptyMetadata : ReportMetadata :=
  { employee_name := none, employee_id := none, company_name := none,
    month := none, year := none, total_hours := none, total_salary := none,
    hourly_rate := none, required_hours := none,
    template_type := TemplateType.UNKNOWN, top_table_rows := [] }

/-- The per-pattern loop body for a numeric field: each pattern in order
is searched, and sets the field only when it matched and the field is
still falsy (`if match and not field`). -/
def updQ (ms : List (List Char → Option ℚ)) (cur : Option ℚ) (l : List Char) :
    Option ℚ :=
  ms.foldl
    (fun acc m =>
      match m l with
      | some v => if qTruthy acc then acc else some v
      | none => acc)
    cur

/-- The per-pattern loop body for the company-name field. -/
def updS (ms : List (List Char → Option String)) (cur : Option String)
    (l : List Char) : Option String :=
  ms.foldl
    (fun acc m =>
      match m l with
      | some v => if sTruthy acc then acc else some v
      | none => acc)
    cur

/-- Value of a numeric capture: `_safe_float(group)`. -/
def capQ (cap : List Char) : ℚ := safeFloat (String.mk cap)

/-- Value of the salary capture:
`_safe_float(group.replace(",", ""))`. -/
def capSalQ (cap : List Char) : ℚ :=
  safeFloat (String.mk (cap.filter (fun c => ¬(c = ','))))

/-- One line of the `_extract_metadata` scanning loop: the five fields'
pattern lists are tried in source order; numeric patterns run on the
lowered line, the company patterns on the original line. -/
def lineStep (md : ReportMetadata) (line : String) : ReportMetadata :=
  let low := lowerList line.toList
  let orig := line.toList
  { md with
    total_hours :=
      updQ [fun l => (searchCap matchTHAt l).map capQ,
            fun l => (searchCap matchDaysAt l).map capQ] md.total_hours low,
    total_salary :=
      updQ [fun l => (searchCap matchSalAt l).map capSalQ,
            fun l => (searchCap matchSal2At l).map capSalQ] md.total_salary low,
    hourly_rate :=
      updQ [fun l => (searchCap matchRateAt l).map capQ] md.hourly_rate low,
    required_hours :=
      updQ [fun l => (searchCap matchReqAt l).map capQ] md.required_hours low,
    company_name :=
      updS [fun l => (searchCap (companyMatchAt xmBavam) l).map
              (fun g => String.mk (pyStrip g)),
            fun l => (searchCap (companyMatchAt xmLtd) l).map
              (fun g => String.mk (pyStrip g))] md.company_name orig }

/-- Digits of a numeric string to a natural number. -/
def toNatDigits (l : List Char) : Nat := l.foldl (fun acc c => 10 * acc + charVal c) 0

/-- Python `str.zfill(2)`. -/
def zfill2 (l : List Char) : List Char :=
  if l.length ≥ 2 then l else List.replicate (2 - l.length) '0' ++ l

/-- `AttendanceParser._extract_month_year`: month and year from the
first date token of the whole text (2-digit years above 50 map to 19xx,
otherwise 20xx). -/
def extractMonthYear (md : ReportMetadata) (text : List Char) : ReportMetadata :=
  match scanAll matchDateFrom text with
  | [] => md
  | d :: _ =>
      let norm := d.map (fun c => if c = '.' ∨ c = '-' then '/' else c)
      match splitOnChar '/' norm with
      | [_, mm, yy] =>
          let year :=
            if yy.length = 2 then
              if toNatDigits yy > 50 then ("19").toList ++ yy
              else ("20").toList ++ yy
            else yy
          { md with month := some (String.mk (zfill2 mm)),
                    year := some (String.mk year) }
      | _ => md

/-- `AttendanceParser._extract_metadata`: scan the first 25 lines with
the labeled patterns, then derive month/year from the text. -/
def extractMetadata (md : ReportMetadata) (lines : List String)
    (text : List Char) : ReportMetadata :=
  extractMonthYear ((lines.take 25).foldl lineStep md) text

/-!  Record extraction: `_extract_day`, `_extract_location`,
`_merge_broken_lines`, and the flexible SIMPLE/DETAILED record
parsers. -/

/-- A Hebrew letter (the `[א-ת]` class, U+05D0 to U+05EA). -/
def isHebrewLetter (c : Char) : Bool := 0x5D0 ≤ c.toNat ∧ c.toNat ≤ 0x5EA

/-- Length of the leading Hebrew-letter run. -/
def countHebrew : List Char → Nat
  | [] => 0
  | c :: cs => if isHebrewLetter c then countHebrew cs + 1 else 0

/-- `FlexiblePatterns.HEBREW_DAY = ([א-ת]{2,6}י?\'?)` anchored at the
head: greedily up to six Hebrew letters (at least two), an optional `י`
(which can only extend a run longer than six), an optional
apostrophe. -/
def matchHebrewDayFrom (l : List Char) : Option Nat :=
  let r := countHebrew l
  if r < 2 then none
  else
    let k := min r 6
    let k2 :=
      match l.drop k with
      | c :: _ => if c.toNat = 0x5D9 then k + 1 else k
      | [] => k
    match l.drop k2 with
    | c :: _ => if c.toNat = 39 then some (k2 + 1) else some k2
    | [] => some k2

/-- The English weekday alternation, in the source's order, matched
case-insensitively at the head of the lowered list; returns the matched
length. -/
def matchEnglishDayFrom (low : List Char) : Option Nat :=
  (["monday", "tuesday", "wednesday", "thursday", "friday", "saturday",
    "sunday", "mon", "tue", "wed", "thu", "fri", "sat", "sun"].findSome?
    (fun d => if d.toList.isPrefixOf low then some d.toList.length else none))

/-- `re.search` for the English weekday on the original-case line:
scan the lowered list, slice the original. -/
def searchEnglishDay (orig low : List Char) : Option (List Char) :=
  match orig, low with
  | c :: cs, _ :: ls =>
      match matchEnglishDayFrom low with
      | some k => some ((c :: cs).take k)
      | none => searchEnglishDay cs ls
  | _, _ => none

/-- `AttendanceParser._extract_day`: Hebrew weekday pattern first, then
the English names (case-insensitively); empty string when neither
matches. -/
def extractDay (line : String) : String :=
  match searchFirst matchHebrewDayFrom line.toList with
  | some d => String.mk d
  | none =>
      match searchEnglishDay line.toList (lowerList line.toList) with
      | some d => String.mk d
      | none => ""

/-- Python `str.find`: index of the first occurrence of a substring. -/
def findSub (pat : List Char) : List Char → Option Nat
  | [] => if pat.isEmpty then some 0 else none
  | c :: cs =>
      if pat.isPrefixOf (c :: cs) then some 0
      else (findSub pat cs).map (fun i => i + 1)

/-- `AttendanceParser._extract_location`: the first word after the
matched weekday, when it is at most six characters and not a time
token. -/
def extractLocation (line : String) (day : String) : String :=
  if day = "" then ""
  else
    match findSub day.toList line.toList with
    | none => ""
    | some i =>
        let afterDay := pyStrip (line.toList.drop (i + day.toList.length))
        match splitWs afterDay with
        | w :: _ =>
            if w.length ≤ 6 ∧ (matchTimeFrom w).isNone then String.mk w else ""
        | [] => ""

/-- `AttendanceParser._merge_broken_lines`: date-prefixed lines start a
new logical row; other lines are appended, space-joined. -/
def mergeBrokenLines (lines : List String) : List String :=
  let step := fun (acc : List String × List Char) (line : String) =>
    if (matchDateFrom line.toList).isSome then
      (if acc.2 ≠ [] then acc.1 ++ [String.mk (pyStrip acc.2)] else acc.1,
       line.toList)
    else (acc.1, acc.2 ++ ' ' :: line.toList)
  let fin := lines.foldl step ([], [])
  if fin.2 ≠ [] then fin.1 ++ [String.mk (pyStrip fin.2)] else fin.1

/-- One attendance record.  `AttendanceRecord` and its subclass
`DetailedAttendanceRecord` are modelled as a single structure with an
`isDetailed` discriminant: the Python code distinguishes the subclass by
`hasattr` probes on the detailed-only fields. -/
structure AttendanceRecord where
  date : String
  day_of_week : String
  start_time : Option String
  end_time : Option String
  hours : Option ℚ
  total : Option ℚ
  notes : Option String
  isDetailed : Bool
  location : Option String
  break_time : Option String
  hours_100 : Option ℚ
  hours_125 : Option ℚ
  hours_150 : Option ℚ
  saturday : Option ℚ
deriving DecidableEq, Repr

/-- One line of `_parse_simple_records_flexible`: date required, at
least two time tokens, the last decimal token as the total. -/
def mkSimpleRec (line : String) : Option AttendanceRecord :=
  match searchFirst matchDateFrom line.toList with
  | none => none
  | some d =>
      let day := extractDay line
      match scanAll matchTimeFrom line.toList with
      | t1 :: t2 :: _ =>
          let decimals := scanAll matchDecimalFrom line.toList
          let total := decimals.getLast?.map (fun x => safeFloat (String.mk x))
          some { date := String.mk d, day_of_week := day,
                 start_time := some (String.mk t1),
                 end_time := some (String.mk t2),
                 hours := total, total := total, notes := none,
                 isDetailed := false, location := none, break_time := none,
                 hours_100 := none, hours_125 := none, hours_150 := none,
                 saturday := none }
      | _ => none

/-- One line of `_parse_detailed_records_flexible`: a third time token
is the break, the decimal tokens map positionally to
(total, 100%, 125%, 150%, saturday). -/
def mkDetailedRec (line : String) : Option AttendanceRecord :=
  match searchFirst matchDateFrom line.toList with
  | none => none
  | some d =>
      let day := extractDay line
      match scanAll matchTimeFrom line.toList with
      | t1 :: t2 :: rest =>
          let decimals := scanAll matchDecimalFrom line.toList
          let dq := fun (i : Nat) =>
            (decimals.get? i).map (fun x => safeFloat (String.mk x))
          some { date := String.mk d, day_of_week := day,
                 start_time := some (String.mk t1),
                 end_time := some (String.mk t2),
                 hours := dq 0, total := dq 0, notes := none,
                 isDetailed := true,
                 location := some (extractLocation line day),
                 break_time := (rest.head?).map String.mk,
                 hours_100 := dq 1, hours_125 := dq 2, hours_150 := dq 3,
                 saturday := dq 4 }
      | _ => none

/-- `AttendanceParser._parse_simple_records_flexible`. -/
def parseSimpleRecords (lines : List String) : List AttendanceRecord :=
  (mergeBrokenLines lines).filterMap mkSimpleRec

/-- `AttendanceParser._parse_detailed_records_flexible`. -/
def parseDetailedRecords (lines : List String) : List AttendanceRecord :=
  (mergeBrokenLines lines).filterMap mkDetailedRec

/-- `AttendanceParser._calculate_totals`: derive `total_hours` by
summing truthy per-record `hours`, then `total_salary` from the rate
when both are known. -/
def calcTotals (md : ReportMetadata) (records : List AttendanceRecord) :
    ReportMetadata :=
  let hoursSum :=
    ((records.filterMap (fun r => r.hours)).filter (fun q => ¬ q = 0)).sum
  let md1 :=
    if ¬ qTruthy md.total_hours = true ∧ records ≠ [] then
      { md with total_hours := some (round2 hoursSum) }
    else md
  let salary := round2 ((md1.hourly_rate.getD 0) * (md1.total_hours.getD 0))
  if ¬ qTruthy md1.total_salary = true ∧ qTruthy md1.hourly_rate = true ∧
      qTruthy md1.total_hours = true then
    { md1 with total_salary := some salary }
  else md1

/-- `ParsedReport`. -/
structure ParsedReport where
  metadata : ReportMetadata
  records : List AttendanceRecord
  template_type : TemplateType
  raw_text : String
deriving DecidableEq, Repr

/-- The template dispatch of `AttendanceParser.parse`: the UNKNOWN
branch (`_parse_flexible_generic`) tries the SIMPLE grammar first and
falls back to DETAILED only when no record resulted. -/
def parseRecordsFor (tpl : TemplateType) (lines : List String) :
    List AttendanceRecord :=
  match tpl with
  | TemplateType.DETAILED => parseDetailedRecords lines
  | TemplateType.SIMPLE => parseSimpleRecords lines
  | TemplateType.UNKNOWN =>
      let s := parseSimpleRecords lines
      if s = [] then parseDetailedRecords lines else s

/-- `AttendanceParser.parse` (the `parse_attendance_report` entry
point): clean, classify, extract metadata, parse records by template,
reconcile totals. -/
def parseReport (raw : String) : ParsedReport :=
  let text := cleanText raw
  let lines := linesOf text
  let tpl := identifyTemplateCore text lines
  let md0 := { emptyMetadata with template_type := tpl }
  let md1 := extractMetadata md0 lines text.toList
  let recs := parseRecordsFor tpl lines
  let md2 := calcTotals md1 recs
  { metadata := md2, records := recs, template_type := tpl, raw_text := text }

/-!  `AttendanceVariationGenerator` (data_generator.py).  Each
`random.randint(-k, k)` draw is an explicit integer argument; the
time arithmetic of `datetime + timedelta` followed by the hour/minute
comparison of the source is minute arithmetic modulo one day. -/

/-- String constants of `_vary_record`. -/
def t0600 : String := "06:00"

/-- See `t0600`. -/
def t1000 : String := "10:00"

/-- See `t0600`. -/
def t1400 : String := "14:00"

/-- See `t0600`. -/
def t2300 : String := "23:00"

/-- `AttendanceVariationGenerator._vary_time`: jitter the parsed time by
`j` minutes, clamp the resulting time-of-day into
`[earliest, latest]` (times below the window go to `earliest`, above it
to `latest`), render as `HH:MM`; unparseable inputs are returned
unchanged. -/
def varyTime (t : String) (j : ℤ) (earliest latest : String) : String :=
  match parseHM t, parseHM earliest, parseHM latest with
  | some (h, m), some (eh, em), some (lh, lm) =>
      let vm : ℤ := ((h * 60 + m : ℤ) + j) % 1440
      let e : ℤ := eh * 60 + em
      let l : ℤ := lh * 60 + lm
      if vm < e then formatHM eh em
      else if l < vm then formatHM lh lm
      else formatHM (vm.toNat / 60) (vm.toNat % 60)
  | _, _, _ => t

/-- `AttendanceVariationGenerator._vary_break_time`: jitter the parsed
break by `j` minutes; when the jittered hour exceeds 2 the original
parsed time is rendered instead. -/
def varyBreakTime (t : String) (j : ℤ) : String :=
  match parseHM t with
  | some (h, m) =>
      let vm : ℤ := ((h * 60 + m : ℤ) + j) % 1440
      if vm.toNat / 60 > 2 then formatHM h m
      else formatHM (vm.toNat / 60) (vm.toNat % 60)
  | none => t

/-- `AttendanceVariationGenerator._time_to_hours`: `HH:MM` to decimal
hours, 0.0 when unparseable. -/
def timeToHours (t : String) : ℚ :=
  match parseHM t with
  | some (h, m) => (h : ℚ) + (m : ℚ) / 60
  | none => 0

/-- `AttendanceVariationGenerator._calculate_hours`: duration from start
to end (end at or before start is next-day), minus the break, clamped
at 0, rounded to 2 decimals; 0.0 when either time is unparseable. -/
def calculateHours (s e : String) (breakHours : ℚ) : ℚ :=
  match parseHM s, parseHM e with
  | some (sh, sm), some (eh, em) =>
      let sM : ℤ := sh * 60 + sm
      let eM : ℤ := eh * 60 + em
      let eM2 : ℤ := if eM ≤ sM then eM + 1440 else eM
      round2 (max 0 (((eM2 - sM : ℤ) : ℚ) / 60 - breakHours))
  | _, _ => 0

/-- `AttendanceVariationGenerator._recalculate_percentages`: tiered
overtime from the record's total with break points at 9 and 11 hours,
each tier rounded to 2 decimals. -/
def recalculatePercentages (r : AttendanceRecord) : AttendanceRecord :=
  let total := r.total.getD 0
  if total ≤ 9 then
    { r with hours_100 := some (round2 total), hours_125 := some (round2 0),
             hours_150 := some (round2 0) }
  else if total ≤ 11 then
    { r with hours_100 := some (round2 9), hours_125 := some (round2 (total - 9)),
             hours_150 := some (round2 0) }
  else
    { r with hours_100 := some (round2 9), hours_125 := some (round2 2),
             hours_150 := some (round2 (total - 11)) }

/-- `_vary_record`, first block: `if varied.start_time:` vary the start
inside 06:00–10:00. -/
def varyStartStep (r : AttendanceRecord) (j1 : ℤ) : AttendanceRecord :=
  match r.start_time with
  | some s =>
      if s = "" then r
      else { r with start_time := some (varyTime s j1 t0600 t1000) }
  | none => r

/-- `_vary_record`, second block: `if varied.end_time:` vary the end,
with the (possibly varied) start — or 14:00 — as the earliest bound and
23:00 as the latest. -/
def varyEndStep (r : AttendanceRecord) (j2 : ℤ) : AttendanceRecord :=
  match r.end_time with
  | some e =>
      if e = "" then r
      else
        let earliest :=
          match r.start_time with
          | some s => if s = "" then t1400 else s
          | none => t1400
        { r with end_time := some (varyTime e j2 earliest t2300) }
  | none => r

/-- `_vary_record`, third block: vary the break when the record carries
one (the subclass probe `hasattr(varied, 'break_time')` is the
`isDetailed` discriminant). -/
def varyBreakStep (r : AttendanceRecord) (j3 : ℤ) : AttendanceRecord :=
  if r.isDetailed then
    match r.break_time with
    | some b =>
        if b = "" then r
        else { r with break_time := some (varyBreakTime b j3) }
    | none => r
  else r

/-- The break hours entering the recomputed total:
`self._time_to_hours(varied.break_time) if hasattr(varied, 'break_time')
and varied.break_time else 0`. -/
def breakHoursOf (r : AttendanceRecord) : ℚ :=
  if r.isDetailed then
    match r.break_time with
    | some b => if b = "" then 0 else timeToHours b
    | none => 0
  else 0

/-- `_vary_record`, final block: when both varied times are truthy,
recompute `hours`/`total` and, for detailed records, the overtime
tiers. -/
def recomputeStep (r : AttendanceRecord) : AttendanceRecord :=
  if sTruthy r.start_time && sTruthy r.end_time then
    let th := calculateHours (r.start_time.getD "") (r.end_time.getD "")
        (breakHoursOf r)
    let v4 := { r with hours := some th, total := some th }
    if v4.isDetailed then recalculatePercentages v4 else v4
  else r

/-- `AttendanceVariationGenerator._vary_record` with the three jitter
draws explicit. -/
def varyRecord (r : AttendanceRecord) (j1 j2 j3 : ℤ) : AttendanceRecord :=
  recomputeStep (varyBreakStep (varyEndStep (varyStartStep r j1) j2) j3)

/-- The generation loop over the records, threading the per-record
jitter triples. -/
def varyRecords (jf : Nat → ℤ × ℤ × ℤ) (i : Nat) :
    List AttendanceRecord → List AttendanceRecord
  | [] => []
  | r :: rs =>
      varyRecord r (jf i).1 (jf i).2.1 (jf i).2.2 :: varyRecords jf (i + 1) rs

/-- `AttendanceVariationGenerator._recalculate_totals`: sum the truthy
per-record hours, update `total_hours`, and when a rate is known update
`total_salary` from the unrounded sum. -/
def recalculateTotals (rep : ParsedReport) : ParsedReport :=
  if rep.records = [] then rep
  else
    let th :=
      ((rep.records.filterMap (fun r => r.hours)).filter (fun q => ¬ q = 0)).sum
    let md1 := { rep.metadata with total_hours := some (round2 th) }
    let md2 :=
      if qTruthy md1.hourly_rate then
        { md1 with total_salary := some (round2 ((md1.hourly_rate.getD 0) * th)) }
      else md1
    { rep with metadata := md2 }

/-- `AttendanceVariationGenerator.generate_variation` on a deep copy of
the parsed report, with an explicit jitter source. -/
def generateVariation (rep : ParsedReport) (jf : Nat → ℤ × ℤ × ℤ) :
    ParsedReport :=
  recalculateTotals { rep with records := varyRecords jf 0 rep.records }

/-!  `PDFReader._calculate_row_spacing` (pdf_reader.py). -/

/-- One positioned text span (the bbox fields used by the structure
analysis). -/
structure Span where
  text : String
  x0 : ℚ
  y0 : ℚ
  x1 : ℚ
  y1 : ℚ
deriving DecidableEq, Repr

/-- Python `sorted(set(xs))`: distinct values in ascending order. -/
def sortedDistinct (l : List ℚ) : List ℚ :=
  l.dedup.insertionSort (fun a b => a ≤ b)

/-- Consecutive differences. -/
def consecGaps : List ℚ → List ℚ
  | a :: b :: rest => (b - a) :: consecGaps (b :: rest)
  | _ => []

/-- The maximal multiplicity in a list. -/
def maxCount (l : List ℚ) : Nat := (l.map l.count).foldr max 0

/-- `Counter(l).most_common(1)[0][0]`: the first element (in list
order, hence first-inserted) attaining the maximal multiplicity. -/
def firstMode (l : List ℚ) : Option ℚ :=
  l.find? (fun x => l.count x = maxCount l)

/-- `PDFReader._calculate_row_spacing`: modal gap of the distinct
1-decimal-rounded span tops, 14.0 as default. -/
def calculateRowSpacing (spans : List Span) : ℚ :=
  if spans.length < 2 then 14
  else
    let ys := sortedDistinct (spans.map (fun s => round1 s.y0))
    if ys.length < 2 then 14
    else (firstMode ((consecGaps ys).map round1)).getD 14

/-!  Concrete instances evaluated by the claim theorems, counterexamples
and witnesses. -/

/-- A detailed report text whose data row carries tiered-overtime tokens
that do not sum to the total token. -/
def cx1Text : String :=
  "125% 150% הפסקה\n01/01/2024 ראשון 08:00 17:00 5.00 1.00 1.00 1.00"

/-- The record the parser produces from `cx1Text`. -/
def c1Rec : AttendanceRecord :=
  { date := "01/01/2024", day_of_week := "ראשון",
    start_time := some "08:00", end_time := some "17:00",
    hours := some 5, total := some 5, notes := none, isDetailed := true,
    location := some "", break_time := none,
    hours_100 := some 1, hours_125 := some 1, hours_150 := some 1,
    saturday := none }

/-- A blank base record. -/
def baseRec : AttendanceRecord :=
  { date := "01/01/2024", day_of_week := "", start_time := none,
    end_time := none, hours := none, total := none, notes := none,
    isDetailed := false, location := none, break_time := none,
    hours_100 := none, hours_125 := none, hours_150 := none,
    saturday := none }

/-- A record whose jittered end time clamps onto the jittered start. -/
def recC2 : AttendanceRecord :=
  { baseRec with start_time := some "09:58", end_time := some "10:05" }

/-- A detailed record whose recomputed total is 8.5 hours. -/
def recC3 : AttendanceRecord :=
  { baseRec with
      start_time := some "08:00", end_time := some "16:30",
      isDetailed := true, hours_100 := some 0, hours_125 := some 0,
      hours_150 := some 0 }

/-- A detailed record with a 10-hour shift and a 30-minute break. -/
def recC4 : AttendanceRecord :=
  { recC3 with end_time := some "18:00", break_time := some "00:30" }

/-- A detailed record with a plain 5-hour total. -/
def c3wRec : AttendanceRecord :=
  { baseRec with isDetailed := true, total := some 5 }

/-- Text with two simple keywords but an estimated column count of
12. -/
def cx5Text : String :=
  "start end\n01/01/2024 1:00 2:00 3:00 4:00 1.11 2.22 3.33 4.44 aa bb cc"

/-- Text with two simple keywords and a small column count. -/
def w5Text : String := "כניסה יציאה"

/-- A span at a given top coordinate. -/
def spanAtY (y : ℚ) : Span := { text := "", x0 := 0, y0 := y, x1 := 0, y1 := 0 }

/-- The spec's row-spacing example: tops 100, 114, 128, 142, 200. -/
def c6Spans : List Span :=
  [spanAtY 100, spanAtY 114, spanAtY 128, spanAtY 142, spanAtY 200]

/-- A single span (fewer than two distinct tops). -/
def c6OneSpan : List Span := [spanAtY 100]

/-- The rounded consecutive gaps the row-spacing computation counts. -/
def roundedGaps (spans : List Span) : List ℚ :=
  (consecGaps (sortedDistinct (spans.map (fun s => round1 s.y0)))).map round1

/-- A metadata line whose captured total parses to 0.0. -/
def c7line1 : String := "Total Hours: 0.0"

/-- A metadata line whose captured total parses to 5.5. -/
def c7line2 : String := "Total Hours: 5.5"

/-- Metadata with all five scanned fields already truthy. -/
def c7wMd : ReportMetadata :=
  { emptyMetadata with
      company_name := some "x", total_hours := some 1,
      total_salary := some 2, hourly_rate := some 3, required_hours := some 4 }

/-- A two-line simple report. -/
def w9Text : String := "כניסה יציאה\n01/01/2024 ראשון 08:00 17:00 8.50"

/-- The record the parser produces from `w9Text`. -/
def w9Rec : AttendanceRecord :=
  { baseRec with
      day_of_week := "ראשון", start_time := some "08:00",
      end_time := some "17:00", hours := some (17/2), total := some (17/2) }

/-- A report holding `w9Rec`. -/
def w9Report : ParsedReport :=
  { metadata := emptyMetadata, records := [w9Rec],
    template_type := TemplateType.SIMPLE, raw_text := "" }

/-- The all-zero jitter source. -/
def jfZero : Nat → ℤ × ℤ × ℤ := fun _ => (0, 0, 0)

/-- The variation of `w9Rec` under zero jitter. -/
def w9Varied : AttendanceRecord :=
  { w9Rec with hours := some 9, total := some 9 }

/-- Minutes-since-midnight of an optional time string, when it
parses. -/
def parsedMinutes (o : Option String) : Option Nat :=
  (parseHM (o.getD "")).map (fun p => p.1 * 60 + p.2)

/-!  Rounding lemmas. -/

theorem pyRound_intCast (a : ℤ) : pyRound (a : ℚ) = a := by
  unfold pyRound
  simp only [Int.floor_intCast]
  have h : (a : ℚ) - a = 0 := by ring
  rw [h]
  norm_num

theorem round2_shape (q : ℚ) : ∃ a : ℤ, round2 q = (a : ℚ) / 100 :=
  ⟨pyRound (q * 100), rfl⟩

theorem round2_eq_self {x : ℚ} (h : ∃ a : ℤ, x = (a : ℚ) / 100) :
    round2 x = x := by
  obtain ⟨a, rfl⟩ := h
  unfold round2
  have h1 : (a : ℚ) / 100 * 100 = (a : ℚ) := by ring
  rw [h1, pyRound_intCast]

theorem round2_idem (q : ℚ) : round2 (round2 q) = round2 q :=
  round2_eq_self (round2_shape q)

theorem round2_zero : round2 0 = 0 :=
  round2_eq_self ⟨0, by norm_num⟩

theorem round2_nine : round2 9 = 9 :=
  round2_eq_self ⟨900, by norm_num⟩

theorem round2_two : round2 2 = 2 :=
  round2_eq_self ⟨200, by norm_num⟩

theorem round2_sub_shape {x : ℚ} (k : ℤ) (h : ∃ a : ℤ, x = (a : ℚ) / 100) :
    ∃ a : ℤ, x - (k : ℚ) = (a : ℚ) / 100 := by
  obtain ⟨a, rfl⟩ := h
  exact ⟨a - 100 * k, by push_cast; ring⟩

/-!  Time parsing and formatting lemmas. -/

theorem charVal_digitChar {n : Nat} (h : n ≤ 9) : charVal (digitChar n) = n := by
  interval_cases n <;> decide

theorem isDigit_digitChar {n : Nat} (h : n ≤ 9) :
    (digitChar n).isDigit = true := by
  interval_cases n <;> decide

theorem parseHMduo_eq {a b h m : Nat} (hp : parseHMduo a b = some (h, m)) :
    a = h ∧ b = m ∧ h ≤ 23 ∧ m ≤ 59 := by
  unfold parseHMduo at hp
  split at hp
  · cases hp
    exact ⟨rfl, rfl, by omega, by omega⟩
  · cases hp

theorem parseHMList_bounds {l : List Char} {h m : Nat}
    (hp : parseHMList l = some (h, m)) : h ≤ 23 ∧ m ≤ 59 := by
  unfold parseHMList at hp
  split at hp <;>
    first
    | cases hp
    | (split_ifs at hp <;>
        first
        | cases hp
        | exact ⟨(parseHMduo_eq hp).2.2.1, (parseHMduo_eq hp).2.2.2⟩)

theorem parseHM_bounds {s : String} {h m : Nat}
    (hp : parseHM s = some (h, m)) : h ≤ 23 ∧ m ≤ 59 :=
  parseHMList_bounds hp

theorem parseHM_formatHM {h m : Nat} (hh : h ≤ 23) (hm : m ≤ 59) :
    parseHM (formatHM h m) = some (h, m) := by
  have h1 : h / 10 ≤ 9 := by omega
  have h2 : h % 10 ≤ 9 := by omega
  have h3 : m / 10 ≤ 9 := by omega
  have h4 : m % 10 ≤ 9 := by omega
  have e1 : parseHM (formatHM h m) =
      parseHMList [digitChar (h / 10), digitChar (h % 10), ':',
        digitChar (m / 10), digitChar (m % 10)] := rfl
  rw [e1]
  unfold parseHMList
  simp only [isDigit_digitChar h1, isDigit_digitChar h2, isDigit_digitChar h3,
    isDigit_digitChar h4, charVal_digitChar h1, charVal_digitChar h2,
    charVal_digitChar h3, charVal_digitChar h4, if_pos, and_self, true_and,
    and_true, if_true]
  have e2 : 10 * (h / 10) + h % 10 = h := by omega
  have e3 : 10 * (m / 10) + m % 10 = m := by omega
  rw [e2, e3]
  unfold parseHMduo
  rw [if_pos ⟨hh, hm⟩]

theorem formatHM_ne_empty (h m : Nat) : formatHM h m ≠ "" := by
  unfold formatHM pad2
  intro hcon
  have : ([digitChar (h / 10), digitChar (h % 10)] ++ [':'] ++
      [digitChar (m / 10), digitChar (m % 10)]) = ([] : List Char) :=
    congrArg String.toList hcon
  simp at this

theorem parseHM_ne_empty {s : String} {p : Nat × Nat}
    (hp : parseHM s = some p) : s ≠ "" := by
  intro hcon
  rw [hcon] at hp
  cases hp

/-!  `_vary_time` lemmas: on parseable inputs the result is a rendered
time clamped into the window. -/

theorem varyTime_spec {t elo lhi : String} {th tm eh em lh lm : Nat} (j : ℤ)
    (hpt : parseHM t = some (th, tm)) (hpe : parseHM elo = some (eh, em))
    (hpl : parseHM lhi = some (lh, lm)) (hel : eh * 60 + em ≤ lh * 60 + lm) :
    ∃ h2 m2, varyTime t j elo lhi = formatHM h2 m2 ∧ h2 ≤ 23 ∧ m2 ≤ 59 ∧
      eh * 60 + em ≤ h2 * 60 + m2 ∧ h2 * 60 + m2 ≤ lh * 60 + lm := by
  obtain ⟨heb1, heb2⟩ := parseHM_bounds hpe
  obtain ⟨hlb1, hlb2⟩ := parseHM_bounds hpl
  unfold varyTime
  rw [hpt, hpe, hpl]
  simp only
  set vm : ℤ := ((th * 60 + tm : ℤ) + j) % 1440 with hvm
  have hvm0 : 0 ≤ vm := Int.emod_nonneg _ (by norm_num)
  have hvm1 : vm < 1440 := Int.emod_lt_of_pos _ (by norm_num)
  by_cases hlt : vm < (eh : ℤ) * 60 + em
  · rw [if_pos hlt]
    exact ⟨eh, em, rfl, heb1, heb2, le_refl _, hel⟩
  · rw [if_neg hlt]
    by_cases hgt : (lh : ℤ) * 60 + lm < vm
    · rw [if_pos hgt]
      exact ⟨lh, lm, rfl, hlb1, hlb2, hel, le_refl _⟩
    · rw [if_neg hgt]
      refine ⟨vm.toNat / 60, vm.toNat % 60, rfl, ?_, ?_, ?_, ?_⟩
      · omega
      · omega
      · omega
      · omega

theorem varyTime_ne_empty {t elo lhi : String} (j : ℤ) (ht : t ≠ "") :
    varyTime t j elo lhi ≠ "" := by
  unfold varyTime
  split
  · dsimp only
    split
    · exact formatHM_ne_empty _ _
    · split
      · exact formatHM_ne_empty _ _
      · exact formatHM_ne_empty _ _
  · exact ht

theorem varyBreakTime_ne_empty {t : String} (j : ℤ) (ht : t ≠ "") :
    varyBreakTime t j ≠ "" := by
  unfold varyBreakTime
  split
  · dsimp only
    split
    · exact formatHM_ne_empty _ _
    · exact formatHM_ne_empty _ _
  · exact ht

theorem varyBreakTime_cases {t : String} {h m : Nat} (j : ℤ)
    (hp : parseHM t = some (h, m)) :
    varyBreakTime t j = formatHM h m ∨
      ∃ h2 m2, varyBreakTime t j = formatHM h2 m2 ∧ h2 ≤ 2 ∧ m2 ≤ 59 := by
  unfold varyBreakTime
  rw [hp]
  simp only
  set vm : ℤ := ((h * 60 + m : ℤ) + j) % 1440 with hvm
  have hvm0 : 0 ≤ vm := Int.emod_nonneg _ (by norm_num)
  have hvm1 : vm < 1440 := Int.emod_lt_of_pos _ (by norm_num)
  by_cases hb : vm.toNat / 60 > 2
  · rw [if_pos hb]
    exact Or.inl rfl
  · rw [if_neg hb]
    exact Or.inr ⟨vm.toNat / 60, vm.toNat % 60, rfl, by omega, by omega⟩

/-!  Field bookkeeping for the `_vary_record` steps. -/

theorem sTruthy_iff {o : Option String} :
    sTruthy o = true ↔ ∃ s, o = some s ∧ s ≠ "" := by
  cases o with
  | none => simp [sTruthy]
  | some s => by_cases h : s = "" <;> simp [sTruthy, h]

theorem varyStartStep_fields (r : AttendanceRecord) (j1 : ℤ) :
    (varyStartStep r j1).end_time = r.end_time ∧
    (varyStartStep r j1).break_time = r.break_time ∧
    (varyStartStep r j1).isDetailed = r.isDetailed ∧
    (varyStartStep r j1).hours = r.hours ∧
    (varyStartStep r j1).total = r.total := by
  unfold varyStartStep
  split <;> try split_ifs
  all_goals simp

theorem varyStartStep_start {r : AttendanceRecord} {s : String} (j1 : ℤ)
    (h : r.start_time = some s) (hne : s ≠ "") :
    (varyStartStep r j1).start_time = some (varyTime s j1 t0600 t1000) := by
  unfold varyStartStep
  rw [h]
  dsimp only
  rw [if_neg hne]

theorem varyEndStep_fields (r : AttendanceRecord) (j2 : ℤ) :
    (varyEndStep r j2).start_time = r.start_time ∧
    (varyEndStep r j2).break_time = r.break_time ∧
    (varyEndStep r j2).isDetailed = r.isDetailed ∧
    (varyEndStep r j2).hours = r.hours ∧
    (varyEndStep r j2).total = r.total := by
  unfold varyEndStep
  split <;> try split_ifs
  all_goals simp

theorem varyEndStep_end {r : AttendanceRecord} {e s : String} (j2 : ℤ)
    (he : r.end_time = some e) (hene : e ≠ "")
    (hs : r.start_time = some s) (hsne : s ≠ "") :
    (varyEndStep r j2).end_time = some (varyTime e j2 s t2300) := by
  unfold varyEndStep
  rw [he]
  dsimp only
  rw [if_neg hene, hs]
  dsimp only
  rw [if_neg hsne]

theorem varyBreakStep_fields (r : AttendanceRecord) (j3 : ℤ) :
    (varyBreakStep r j3).start_time = r.start_time ∧
    (varyBreakStep r j3).end_time = r.end_time ∧
    (varyBreakStep r j3).isDetailed = r.isDetailed ∧
    (varyBreakStep r j3).hours = r.hours ∧
    (varyBreakStep r j3).total = r.total := by
  unfold varyBreakStep
  split_ifs
  · split <;> try split_ifs
    all_goals simp
  · simp

theorem varyBreakStep_break {r : AttendanceRecord} {b : String} (j3 : ℤ)
    (hd : r.isDetailed = true) (hb : r.break_time = some b) (hne : b ≠ "") :
    (varyBreakStep r j3).break_time = some (varyBreakTime b j3) := by
  unfold varyBreakStep
  rw [if_pos hd, hb]
  dsimp only
  rw [if_neg hne]

theorem recalc_fields (r : AttendanceRecord) :
    (recalculatePercentages r).start_time = r.start_time ∧
    (recalculatePercentages r).end_time = r.end_time ∧
    (recalculatePercentages r).break_time = r.break_time ∧
    (recalculatePercentages r).isDetailed = r.isDetailed ∧
    (recalculatePercentages r).hours = r.hours ∧
    (recalculatePercentages r).total = r.total := by
  unfold recalculatePercentages
  dsimp only
  split_ifs
  all_goals simp

theorem calculateHours_shape (s e : String) (b : ℚ) :
    ∃ a : ℤ, calculateHours s e b = (a : ℚ) / 100 := by
  unfold calculateHours
  split
  · exact round2_shape _
  · exact ⟨0, by norm_num⟩

theorem recalc_sum {r : AttendanceRecord} {t : ℚ}
    (hsh : ∃ a : ℤ, t = (a : ℚ) / 100) (htot : r.total = some t) :
    (recalculatePercentages r).hours_100.getD 0 +
      (recalculatePercentages r).hours_125.getD 0 +
      (recalculatePercentages r).hours_150.getD 0 = t ∧
    (recalculatePercentages r).hours_100.isSome = true ∧
    (recalculatePercentages r).hours_125.isSome = true ∧
    (recalculatePercentages r).hours_150.isSome = true ∧
    (recalculatePercentages r).total = some t := by
  obtain ⟨a, ha⟩ := hsh
  unfold recalculatePercentages
  rw [htot]
  dsimp only [Option.getD_some]
  split_ifs with h1 h2
  · simp only [Option.getD_some, Option.isSome_some, and_true, true_and, and_self]
    rw [round2_eq_self ⟨a, ha⟩, round2_zero]
    ring
  · simp only [Option.getD_some, Option.isSome_some, and_true, true_and, and_self]
    have hs9 : t - 9 = ((a - 900 : ℤ) : ℚ) / 100 := by
      rw [ha]; push_cast; ring
    rw [round2_nine, round2_eq_self ⟨a - 900, hs9⟩, round2_zero]
    ring
  · simp only [Option.getD_some, Option.isSome_some, and_true, true_and, and_self]
    have hs11 : t - 11 = ((a - 1100 : ℤ) : ℚ) / 100 := by
      rw [ha]; push_cast; ring
    rw [round2_nine, round2_two, round2_eq_self ⟨a - 1100, hs11⟩]
    ring

theorem recomputeStep_fields (r : AttendanceRecord) :
    (recomputeStep r).start_time = r.start_time ∧
    (recomputeStep r).end_time = r.end_time ∧
    (recomputeStep r).break_time = r.break_time ∧
    (recomputeStep r).isDetailed = r.isDetailed := by
  unfold recomputeStep
  dsimp only
  split_ifs with h1 h2
  · refine ⟨(recalc_fields _).1.trans (by simp), (recalc_fields _).2.1.trans (by simp),
      (recalc_fields _).2.2.1.trans (by simp), (recalc_fields _).2.2.2.1.trans (by simp)⟩
  · simp
  · simp

/-- State of the record after the three vary steps, under truthy
parseable-or-not start and end times. -/
theorem vary3_state {r : AttendanceRecord} {s e : String} (j1 j2 j3 : ℤ)
    (hs : r.start_time = some s) (hsne : s ≠ "")
    (he : r.end_time = some e) (hene : e ≠ "") :
    (varyBreakStep (varyEndStep (varyStartStep r j1) j2) j3).start_time =
      some (varyTime s j1 t0600 t1000) ∧
    (varyBreakStep (varyEndStep (varyStartStep r j1) j2) j3).end_time =
      some (varyTime e j2 (varyTime s j1 t0600 t1000) t2300) ∧
    (varyBreakStep (varyEndStep (varyStartStep r j1) j2) j3).isDetailed =
      r.isDetailed := by
  have h1s := varyStartStep_start j1 hs hsne
  have h1e : (varyStartStep r j1).end_time = some e :=
    ((varyStartStep_fields r j1).1).trans he
  have hs1ne : varyTime s j1 t0600 t1000 ≠ "" := varyTime_ne_empty j1 hsne
  have h2e := varyEndStep_end j2 h1e hene h1s hs1ne
  have h2s : (varyEndStep (varyStartStep r j1) j2).start_time =
      some (varyTime s j1 t0600 t1000) :=
    ((varyEndStep_fields _ j2).1).trans h1s
  refine ⟨((varyBreakStep_fields _ j3).1).trans h2s,
    ((varyBreakStep_fields _ j3).2.1).trans h2e, ?_⟩
  rw [(varyBreakStep_fields _ j3).2.2.1, (varyEndStep_fields _ j2).2.2.1,
    (varyStartStep_fields r j1).2.2.1]

/-- `_vary_record` keeps `hours == total`. -/
theorem varyRecord_hours_eq_total {r : AttendanceRecord}
    (h : r.hours = r.total) (j1 j2 j3 : ℤ) :
    (varyRecord r j1 j2 j3).hours = (varyRecord r j1 j2 j3).total := by
  have h3 : (varyBreakStep (varyEndStep (varyStartStep r j1) j2) j3).hours =
      (varyBreakStep (varyEndStep (varyStartStep r j1) j2) j3).total := by
    rw [(varyBreakStep_fields _ j3).2.2.2.1, (varyBreakStep_fields _ j3).2.2.2.2,
      (varyEndStep_fields _ j2).2.2.2.1, (varyEndStep_fields _ j2).2.2.2.2,
      (varyStartStep_fields r j1).2.2.2.1, (varyStartStep_fields r j1).2.2.2.2, h]
  show (recomputeStep _).hours = (recomputeStep _).total
  unfold recomputeStep
  dsimp only
  split_ifs with hc hd
  · rw [(recalc_fields _).2.2.2.2.1, (recalc_fields _).2.2.2.2.2]
  · simp
  · exact h3

/-!  Parser-side record invariants. -/

theorem mkSimpleRec_ht {line : String} {r : AttendanceRecord}
    (h : mkSimpleRec line = some r) : r.hours = r.total := by
  unfold mkSimpleRec at h
  split at h
  · cases h
  · split at h
    · cases h
      rfl
    · cases h

theorem mkDetailedRec_ht {line : String} {r : AttendanceRecord}
    (h : mkDetailedRec line = some r) : r.hours = r.total := by
  unfold mkDetailedRec at h
  split at h
  · cases h
  · split at h
    · cases h
      rfl
    · cases h

theorem parseSimpleRecords_ht {lines : List String} {r : AttendanceRecord}
    (h : r ∈ parseSimpleRecords lines) : r.hours = r.total := by
  unfold parseSimpleRecords at h
  obtain ⟨line, _, hline⟩ := List.mem_filterMap.mp h
  exact mkSimpleRec_ht hline

theorem parseDetailedRecords_ht {lines : List String} {r : AttendanceRecord}
    (h : r ∈ parseDetailedRecords lines) : r.hours = r.total := by
  unfold parseDetailedRecords at h
  obtain ⟨line, _, hline⟩ := List.mem_filterMap.mp h
  exact mkDetailedRec_ht hline

theorem parseRecordsFor_ht {tpl : TemplateType} {lines : List String}
    {r : AttendanceRecord} (h : r ∈ parseRecordsFor tpl lines) :
    r.hours = r.total := by
  unfold parseRecordsFor at h
  match tpl with
  | TemplateType.DETAILED => exact parseDetailedRecords_ht h
  | TemplateType.SIMPLE => exact parseSimpleRecords_ht h
  | TemplateType.UNKNOWN =>
      dsimp only at h
      split_ifs at h
      · exact parseDetailedRecords_ht h
      · exact parseSimpleRecords_ht h

theorem varyRecords_mem {jf : Nat → ℤ × ℤ × ℤ} :
    ∀ {i : Nat} {rs : List AttendanceRecord} {v : AttendanceRecord},
      v ∈ varyRecords jf i rs →
      ∃ r ∈ rs, ∃ k, v = varyRecord r (jf k).1 (jf k).2.1 (jf k).2.2 := by
  intro i rs
  induction rs generalizing i with
  | nil => intro v hv; cases hv
  | cons r rs ih =>
      intro v hv
      rcases List.mem_cons.mp hv with h | h
      · exact ⟨r, List.mem_cons_self r rs, i, h⟩
      · obtain ⟨r0, hr0, k, hk⟩ := ih h
        exact ⟨r0, List.mem_cons_of_mem _ hr0, k, hk⟩

/-!  Metadata-extraction preservation lemmas. -/

theorem updQ_truthy {ms : List (List Char → Option ℚ)} {cur : Option ℚ}
    {l : List Char} (h : qTruthy cur = true) : updQ ms cur l = cur := by
  unfold updQ
  induction ms with
  | nil => rfl
  | cons m ms ih =>
      dsimp only [List.foldl]
      cases m l with
      | some v => dsimp only; rw [if_pos h]; exact ih
      | none => exact ih

theorem updS_truthy {ms : List (List Char → Option String)}
    {cur : Option String} {l : List Char} (h : sTruthy cur = true) :
    updS ms cur l = cur := by
  unfold updS
  induction ms with
  | nil => rfl
  | cons m ms ih =>
      dsimp only [List.foldl]
      cases m l with
      | some v => dsimp only; rw [if_pos h]; exact ih
      | none => exact ih

theorem lineStep_keeps (md : ReportMetadata) (line : String) :
    (qTruthy md.total_hours = true →
      (lineStep md line).total_hours = md.total_hours) ∧
    (qTruthy md.total_salary = true →
      (lineStep md line).total_salary = md.total_salary) ∧
    (qTruthy md.hourly_rate = true →
      (lineStep md line).hourly_rate = md.hourly_rate) ∧
    (qTruthy md.required_hours = true →
      (lineStep md line).required_hours = md.required_hours) ∧
    (sTruthy md.company_name = true →
      (lineStep md line).company_name = md.company_name) := by
  unfold lineStep
  refine ⟨fun h => ?_, fun h => ?_, fun h => ?_, fun h => ?_, fun h => ?_⟩ <;>
    simp only [] <;> first | exact updQ_truthy h | exact updS_truthy h

theorem foldl_lineStep_keeps (lines : List String) :
    ∀ md : ReportMetadata,
    (qTruthy md.total_hours = true →
      (lines.foldl lineStep md).total_hours = md.total_hours) ∧
    (qTruthy md.total_salary = true →
      (lines.foldl lineStep md).total_salary = md.total_salary) ∧
    (qTruthy md.hourly_rate = true →
      (lines.foldl lineStep md).hourly_rate = md.hourly_rate) ∧
    (qTruthy md.required_hours = true →
      (lines.foldl lineStep md).required_hours = md.required_hours) ∧
    (sTruthy md.company_name = true →
      (lines.foldl lineStep md).company_name = md.company_name) := by
  induction lines with
  | nil => intro md; exact ⟨fun _ => rfl, fun _ => rfl, fun _ => rfl,
      fun _ => rfl, fun _ => rfl⟩
  | cons line rest ih =>
      intro md
      dsimp only [List.foldl]
      refine ⟨fun h => ?_, fun h => ?_, fun h => ?_, fun h => ?_, fun h => ?_⟩
      · have e := (lineStep_keeps md line).1 h
        rw [(ih (lineStep md line)).1 (by rw [e]; exact h), e]
      · have e := (lineStep_keeps md line).2.1 h
        rw [(ih (lineStep md line)).2.1 (by rw [e]; exact h), e]
      · have e := (lineStep_keeps md line).2.2.1 h
        rw [(ih (lineStep md line)).2.2.1 (by rw [e]; exact h), e]
      · have e := (lineStep_keeps md line).2.2.2.1 h
        rw [(ih (lineStep md line)).2.2.2.1 (by rw [e]; exact h), e]
      · have e := (lineStep_keeps md line).2.2.2.2 h
        rw [(ih (lineStep md line)).2.2.2.2 (by rw [e]; exact h), e]

theorem extractMonthYear_keeps (md : ReportMetadata) (text : List Char) :
    (extractMonthYear md text).total_hours = md.total_hours ∧
    (extractMonthYear md text).total_salary = md.total_salary ∧
    (extractMonthYear md text).hourly_rate = md.hourly_rate ∧
    (extractMonthYear md text).required_hours = md.required_hours ∧
    (extractMonthYear md text).company_name = md.company_name := by
  unfold extractMonthYear
  refine ⟨?_, ?_, ?_, ?_, ?_⟩ <;>
  · split
    · rfl
    · dsimp only
      split
      · simp
      · rfl

/-!  Modal-gap lemmas for the row-spacing computation. -/

theorem le_foldr_max {a : ℕ} {m : List ℕ} (h : a ∈ m) (b : ℕ) :
    a ≤ m.foldr max b := by
  induction m with
  | nil => cases h
  | cons x xs ih =>
      rcases List.mem_cons.mp h with rfl | h2
      · exact le_max_left _ _
      · exact le_trans (ih h2) (le_max_right _ _)

theorem foldr_max_attained {m : List ℕ} (h : m ≠ []) :
    m.foldr max 0 ∈ m ∨ m.foldr max 0 = 0 := by
  induction m with
  | nil => exact absurd rfl h
  | cons x xs ih =>
      by_cases hx : xs = []
      · subst hx
        dsimp only [List.foldr]
        rcases Nat.le_or_le x 0 with h1 | h1
        · exact Or.inr (by omega)
        · exact Or.inl (by simp [Nat.max_eq_left (by omega : (0:ℕ) ≤ x)])
      · dsimp only [List.foldr]
        rcases ih hx with h1 | h1
        · rcases Nat.le_or_le x (xs.foldr max 0) with h2 | h2
          · rw [Nat.max_eq_right h2]
            exact Or.inl (List.mem_cons_of_mem _ h1)
          · rw [Nat.max_eq_left h2]
            exact Or.inl (List.mem_cons_self _ _)
        · rw [h1]
          rcases Nat.le_or_le x 0 with h2 | h2
          · rw [Nat.max_eq_right h2]
            exact Or.inr rfl
          · rw [Nat.max_eq_left h2]
            exact Or.inl (List.mem_cons_self _ _)

theorem count_le_maxCount {l : List ℚ} {y : ℚ} (h : y ∈ l) :
    l.count y ≤ maxCount l := by
  unfold maxCount
  exact le_foldr_max (List.mem_map_of_mem l.count h) 0

theorem firstMode_spec {l : List ℚ} (h : l ≠ []) :
    ∃ x, firstMode l = some x ∧ x ∈ l ∧ ∀ y ∈ l, l.count y ≤ l.count x := by
  have hmm : ∃ x ∈ l, l.count x = maxCount l := by
    have hne : l.map l.count ≠ [] := by
      intro hc
      exact h (List.map_eq_nil_iff.mp hc)
    rcases foldr_max_attained hne with h1 | h1
    · obtain ⟨x, hx, he⟩ := List.mem_map.mp h1
      exact ⟨x, hx, he⟩
    · obtain ⟨x, hx⟩ := List.exists_mem_of_ne_nil l h
      have hc1 : 0 < l.count x := List.count_pos_iff.mpr hx
      have hc2 : l.count x ≤ maxCount l := count_le_maxCount hx
      have hmx : maxCount l = (l.map l.count).foldr max 0 := rfl
      rw [hmx] at hc2
      omega
  obtain ⟨x0, hx0, he0⟩ := hmm
  have hfind : (firstMode l).isSome = true := by
    unfold firstMode
    rcases hf : l.find? (fun x => l.count x = maxCount l) with _ | x
    · exfalso
      have := List.find?_eq_none.mp hf x0 hx0
      simp [he0] at this
    · rfl
  obtain ⟨x, hx⟩ := Option.isSome_iff_exists.mp hfind
  refine ⟨x, hx, List.mem_of_find?_eq_some hx, ?_⟩
  have hp := List.find?_some hx
  have hcx : l.count x = maxCount l := by
    have := of_decide_eq_true hp
    exact this
  intro y hy
  rw [hcx]
  exact count_le_maxCount hy

theorem consecGaps_length (l : List ℚ) :
    (consecGaps l).length = l.length - 1 := by
  induction l with
  | nil => rfl
  | cons a t ih =>
      cases t with
      | nil => rfl
      | cons b u =>
          dsimp only [consecGaps, List.length_cons]
          rw [ih]
          simp

theorem sortedDistinct_length_le (l : List ℚ) :
    (sortedDistinct l).length ≤ l.length := by
  unfold sortedDistinct
  rw [List.length_insertionSort]
  exact le_trans (List.Sublist.length_le l.dedup_sublist) (le_refl _)

/-- Break-time state after the three vary steps, for detailed records
with a truthy break. -/
theorem vary3_break {r : AttendanceRecord} {b : String} (j1 j2 j3 : ℤ)
    (hdet : r.isDetailed = true) (hb : r.break_time = some b) (hbne : b ≠ "") :
    (varyBreakStep (varyEndStep (varyStartStep r j1) j2) j3).break_time =
      some (varyBreakTime b j3) := by
  have h2d : (varyEndStep (varyStartStep r j1) j2).isDetailed = true := by
    rw [(varyEndStep_fields _ j2).2.2.1, (varyStartStep_fields r j1).2.2.1]
    exact hdet
  have h2b : (varyEndStep (varyStartStep r j1) j2).break_time = some b := by
    rw [(varyEndStep_fields _ j2).2.1, (varyStartStep_fields r j1).2.1]
    exact hb
  exact varyBreakStep_break j3 h2d h2b hbne

/-- Behaviour of the final `_vary_record` block when both varied times
are truthy. -/
theorem recomputeStep_truthy {r : AttendanceRecord}
    (hs : sTruthy r.start_time = true) (he : sTruthy r.end_time = true) :
    recomputeStep r =
      (if r.isDetailed then
        recalculatePercentages
          { r with
              hours := some (calculateHours (r.start_time.getD "")
                (r.end_time.getD "") (breakHoursOf r)),
              total := some (calculateHours (r.start_time.getD "")
                (r.end_time.getD "") (breakHoursOf r)) }
      else
        { r with
            hours := some (calculateHours (r.start_time.getD "")
              (r.end_time.getD "") (breakHoursOf r)),
            total := some (calculateHours (r.start_time.getD "")
              (r.end_time.getD "") (breakHoursOf r)) }) := by
  unfold recomputeStep
  rw [if_pos (by rw [hs, he]; rfl)]

/-!  Claim theorems. -/

/-- C1 (amended): for every DETAILED record whose tiered-overtime
fields the Variation Generator has recomputed (its start and end times
were truthy), hours_100 + hours_125 + hours_150 equals total exactly,
hence also to 2-decimal precision; the Record Parser, by contrast, fills
these fields positionally from the text without enforcing the
identity. -/
theorem claim1_generator_tier_sum (r : AttendanceRecord) (j1 j2 j3 : ℤ)
    (hdet : r.isDetailed = true) (hs : sTruthy r.start_time = true)
    (he : sTruthy r.end_time = true) :
    (varyRecord r j1 j2 j3).hours_100.isSome = true ∧
    (varyRecord r j1 j2 j3).hours_125.isSome = true ∧
    (varyRecord r j1 j2 j3).hours_150.isSome = true ∧
    (varyRecord r j1 j2 j3).total.isSome = true ∧
    (varyRecord r j1 j2 j3).hours_100.getD 0 +
      (varyRecord r j1 j2 j3).hours_125.getD 0 +
      (varyRecord r j1 j2 j3).hours_150.getD 0 =
      (varyRecord r j1 j2 j3).total.getD 0 := by
  obtain ⟨s, hseq, hsne⟩ := sTruthy_iff.mp hs
  obtain ⟨e, heeq, hene⟩ := sTruthy_iff.mp he
  obtain ⟨h3s, h3e, h3d⟩ := vary3_state j1 j2 j3 hseq hsne heeq hene
  have hvr : varyRecord r j1 j2 j3 =
      recomputeStep (varyBreakStep (varyEndStep (varyStartStep r j1) j2) j3) :=
    rfl
  set r3 := varyBreakStep (varyEndStep (varyStartStep r j1) j2) j3 with hr3
  have hts : sTruthy r3.start_time = true :=
    sTruthy_iff.mpr ⟨_, h3s, varyTime_ne_empty _ hsne⟩
  have hte : sTruthy r3.end_time = true :=
    sTruthy_iff.mpr ⟨_, h3e, varyTime_ne_empty _ hene⟩
  have hdet3 : r3.isDetailed = true := h3d.trans hdet
  rw [hvr, recomputeStep_truthy hts hte, if_pos hdet3]
  set th := calculateHours (r3.start_time.getD "") (r3.end_time.getD "")
      (breakHoursOf r3) with hth
  obtain ⟨a, ha⟩ := calculateHours_shape (r3.start_time.getD "")
      (r3.end_time.getD "") (breakHoursOf r3)
  have h4t : ({ r3 with hours := some th, total := some th } :
      AttendanceRecord).total = some th := rfl
  obtain ⟨hsum, h1s, h2s, h3s', h4s⟩ :=
    recalc_sum ⟨a, by rw [hth]; exact ha⟩ h4t
  refine ⟨h1s, h2s, h3s', ?_, ?_⟩
  · rw [h4s]
    rfl
  · rw [h4s]
    rw [hsum]
    rfl

set_option maxRecDepth 400000 in
/-- C1 counterexample: the parser accepts a DETAILED row whose tier
tokens (1.00 each) do not sum to its total token (5.00), so the claimed
invariant fails on parser output. -/
theorem claim1_parser_counterexample :
    (parseReport cx1Text).records = [c1Rec] ∧
    c1Rec.hours_100.isSome = true ∧ c1Rec.hours_125.isSome = true ∧
    c1Rec.hours_150.isSome = true ∧
    round2 (c1Rec.hours_100.getD 0 + c1Rec.hours_125.getD 0 +
      c1Rec.hours_150.getD 0) ≠ round2 (c1Rec.total.getD 0) := by
  refine ⟨?_, rfl, rfl, rfl, ?_⟩
  · with_unfolding_all decide
  · with_unfolding_all decide

/-- C1 witness: the amended theorem applied to a concrete detailed
record under zero jitter. -/
theorem claim1_generator_tier_sum_witness :
    (varyRecord recC3 0 0 0).hours_100.isSome = true ∧
    (varyRecord recC3 0 0 0).hours_125.isSome = true ∧
    (varyRecord recC3 0 0 0).hours_150.isSome = true ∧
    (varyRecord recC3 0 0 0).total.isSome = true ∧
    (varyRecord recC3 0 0 0).hours_100.getD 0 +
      (varyRecord recC3 0 0 0).hours_125.getD 0 +
      (varyRecord recC3 0 0 0).hours_150.getD 0 =
      (varyRecord recC3 0 0 0).total.getD 0 :=
  claim1_generator_tier_sum recC3 0 0 0 (by decide) (by decide) (by decide)

/-- C2 (amended): for every record whose start and end times both
parse, the varied end time is never earlier than the varied start time
(jitter below the window floor clamps the end onto the varied start);
equality can occur, and no "+8h" fallback exists. -/
theorem claim2_end_not_before_start (r : AttendanceRecord) (j1 j2 j3 : ℤ)
    (s e : String) (sh sm eh em : Nat)
    (hs : r.start_time = some s) (hps : parseHM s = some (sh, sm))
    (he : r.end_time = some e) (hpe : parseHM e = some (eh, em)) :
    (parsedMinutes (varyRecord r j1 j2 j3).start_time).isSome = true ∧
    (parsedMinutes (varyRecord r j1 j2 j3).end_time).isSome = true ∧
    (parsedMinutes (varyRecord r j1 j2 j3).start_time).getD 0 ≤
      (parsedMinutes (varyRecord r j1 j2 j3).end_time).getD 0 := by
  have hsne := parseHM_ne_empty hps
  have hene := parseHM_ne_empty hpe
  obtain ⟨h3s, h3e, _⟩ := vary3_state j1 j2 j3 hs hsne he hene
  have hvr : varyRecord r j1 j2 j3 =
      recomputeStep (varyBreakStep (varyEndStep (varyStartStep r j1) j2) j3) :=
    rfl
  set r3 := varyBreakStep (varyEndStep (varyStartStep r j1) j2) j3 with hr3
  have hp06 : parseHM t0600 = some (6, 0) := by decide
  have hp10 : parseHM t1000 = some (10, 0) := by decide
  have hp23 : parseHM t2300 = some (23, 0) := by decide
  obtain ⟨a1, b1, hfmt1, ha1, hb1, hlo1, hhi1⟩ :=
    varyTime_spec j1 hps hp06 hp10 (by omega)
  have hps1 : parseHM (varyTime s j1 t0600 t1000) = some (a1, b1) := by
    rw [hfmt1]
    exact parseHM_formatHM ha1 hb1
  obtain ⟨a2, b2, hfmt2, ha2, hb2, hlo2, hhi2⟩ :=
    varyTime_spec j2 hpe hps1 hp23 (by omega)
  have hst : (varyRecord r j1 j2 j3).start_time = some (formatHM a1 b1) := by
    rw [hvr, (recomputeStep_fields r3).1, h3s, hfmt1]
  have het : (varyRecord r j1 j2 j3).end_time = some (formatHM a2 b2) := by
    rw [hvr, (recomputeStep_fields r3).2.1, h3e, hfmt2]
  unfold parsedMinutes
  rw [hst, het]
  dsimp only [Option.getD_some]
  rw [parseHM_formatHM ha1 hb1, parseHM_formatHM ha2 hb2]
  refine ⟨rfl, rfl, ?_⟩
  show a1 * 60 + b1 ≤ a2 * 60 + b2
  omega

/-- C2 counterexample: start 09:58 jittered +5 clamps to 10:00, end
10:05 jittered -10 clamps up to the varied start, giving end = start;
no "+8h" fallback fires, and the total then counts a full next-day
24-hour shift. -/
theorem claim2_counterexample :
    (varyRecord recC2 5 (-10) 0).start_time = some "10:00" ∧
    (varyRecord recC2 5 (-10) 0).end_time = some "10:00" ∧
    (varyRecord recC2 5 (-10) 0).total = some 24 := by
  refine ⟨by decide, by decide, ?_⟩
  with_unfolding_all decide

/-- C2 witness: the amended theorem applied to the concrete record and
jitters of the counterexample. -/
theorem claim2_end_not_before_start_witness :
    (parsedMinutes (varyRecord recC2 5 (-10) 0).start_time).isSome = true ∧
    (parsedMinutes (varyRecord recC2 5 (-10) 0).end_time).isSome = true ∧
    (parsedMinutes (varyRecord recC2 5 (-10) 0).start_time).getD 0 ≤
      (parsedMinutes (varyRecord recC2 5 (-10) 0).end_time).getD 0 :=
  claim2_end_not_before_start recC2 5 (-10) 0 ("09:58") ("10:05") 9 58 10 5
    rfl (by decide) rfl (by decide)

/-- C3 (amended): `_recalculate_percentages` uses break points at 9 and
11 hours: total at most 9 gives hours_100 = total; 9 to 11 gives
hours_100 = 9 and hours_125 = total - 9; above 11 gives hours_100 = 9,
hours_125 = 2 and hours_150 = total - 11 (each tier rounded to 2
decimals). -/
theorem claim3_tier_breakpoints (r : AttendanceRecord) :
    (r.total.getD 0 ≤ 9 →
      (recalculatePercentages r).hours_100 = some (round2 (r.total.getD 0)) ∧
      (recalculatePercentages r).hours_125 = some 0 ∧
      (recalculatePercentages r).hours_150 = some 0) ∧
    (9 < r.total.getD 0 → r.total.getD 0 ≤ 11 →
      (recalculatePercentages r).hours_100 = some 9 ∧
      (recalculatePercentages r).hours_125 =
        some (round2 (r.total.getD 0 - 9)) ∧
      (recalculatePercentages r).hours_150 = some 0) ∧
    (11 < r.total.getD 0 →
      (recalculatePercentages r).hours_100 = some 9 ∧
      (recalculatePercentages r).hours_125 = some 2 ∧
      (recalculatePercentages r).hours_150 =
        some (round2 (r.total.getD 0 - 11))) := by
  unfold recalculatePercentages
  dsimp only
  split_ifs with h1 h2
  · refine ⟨fun _ => ⟨by simp, by simp [round2_zero], by simp [round2_zero]⟩,
      fun hc => absurd h1 (by linarith), fun hc => absurd h1 (by linarith)⟩
  · refine ⟨fun hc => absurd hc h1, fun _ _ =>
      ⟨by simp [round2_nine], by simp, by simp [round2_zero]⟩,
      fun hc => absurd h2 (by linarith)⟩
  · refine ⟨fun hc => absurd hc h1, fun _ hc => absurd hc h2, fun _ =>
      ⟨by simp [round2_nine], by simp [round2_two], by simp⟩⟩

/-- C3 counterexample: a recomputed total of 8.5 hours yields
hours_100 = 8.5 and hours_125 = 0, not the claimed 8h/10h split of
hours_100 = 8 and hours_125 = 0.5. -/
theorem claim3_counterexample :
    (varyRecord recC3 0 0 0).total = some (17/2) ∧
    (varyRecord recC3 0 0 0).hours_100 = some (17/2) ∧
    (varyRecord recC3 0 0 0).hours_125 = some 0 ∧
    ¬((17 : ℚ)/2 = 8) := by
  refine ⟨?_, ?_, ?_, ?_⟩ <;> with_unfolding_all decide

/-- C3 witness: the amended theorem applied to a record with a 5-hour
total. -/
theorem claim3_tier_breakpoints_witness :
    (recalculatePercentages c3wRec).hours_100 =
      some (round2 (c3wRec.total.getD 0)) ∧
    (recalculatePercentages c3wRec).hours_125 = some 0 ∧
    (recalculatePercentages c3wRec).hours_150 = some 0 :=
  (claim3_tier_breakpoints c3wRec).1 (by decide)

/-- C4 (amended): the Variation Generator does not derive break minutes
from the shift duration; the break subtracted in the total computation
is the record's own (jittered) break_time converted to hours, and for
records without a break_time it is zero.  The jitter makes the break,
and hence the total, randomized rather than a deterministic function of
the duration. -/
theorem claim4_break_from_break_time (r : AttendanceRecord) (j1 j2 j3 : ℤ)
    (hdet : r.isDetailed = true) (hs : sTruthy r.start_time = true)
    (he : sTruthy r.end_time = true) (hb : sTruthy r.break_time = true) :
    (varyRecord r j1 j2 j3).break_time.isSome = true ∧
    (varyRecord r j1 j2 j3).total =
      some (calculateHours ((varyRecord r j1 j2 j3).start_time.getD "")
        ((varyRecord r j1 j2 j3).end_time.getD "")
        (timeToHours ((varyRecord r j1 j2 j3).break_time.getD ""))) := by
  obtain ⟨s, hseq, hsne⟩ := sTruthy_iff.mp hs
  obtain ⟨e, heeq, hene⟩ := sTruthy_iff.mp he
  obtain ⟨b, hbeq, hbne⟩ := sTruthy_iff.mp hb
  obtain ⟨h3s, h3e, h3d⟩ := vary3_state j1 j2 j3 hseq hsne heeq hene
  have h3b := vary3_break j1 j2 j3 hdet hbeq hbne
  have hvr : varyRecord r j1 j2 j3 =
      recomputeStep (varyBreakStep (varyEndStep (varyStartStep r j1) j2) j3) :=
    rfl
  set r3 := varyBreakStep (varyEndStep (varyStartStep r j1) j2) j3 with hr3
  have hts : sTruthy r3.start_time = true :=
    sTruthy_iff.mpr ⟨_, h3s, varyTime_ne_empty _ hsne⟩
  have hte : sTruthy r3.end_time = true :=
    sTruthy_iff.mpr ⟨_, h3e, varyTime_ne_empty _ hene⟩
  have hdet3 : r3.isDetailed = true := h3d.trans hdet
  have hbne3 : varyBreakTime b j3 ≠ "" := varyBreakTime_ne_empty j3 hbne
  have hbh : breakHoursOf r3 = timeToHours (varyBreakTime b j3) := by
    unfold breakHoursOf
    rw [if_pos hdet3, h3b]
    dsimp only
    rw [if_neg hbne3]
  rw [hvr, recomputeStep_truthy hts hte, if_pos hdet3]
  have hfields := recalc_fields ({ r3 with
      hours := some (calculateHours (r3.start_time.getD "")
        (r3.end_time.getD "") (breakHoursOf r3)),
      total := some (calculateHours (r3.start_time.getD "")
        (r3.end_time.getD "") (breakHoursOf r3)) } : AttendanceRecord)
  refine ⟨?_, ?_⟩
  · rw [hfields.2.2.1]
    dsimp only
    rw [h3b]
    rfl
  · rw [hfields.2.2.2.2.2, hfields.1, hfields.2.1, hfields.2.2.1]
    dsimp only
    rw [h3b, hbh]
    rfl

/-- C4 counterexample: a 10-hour shift with a 30-minute break yields a
total of 9.5 hours, not the 10 - 45/60 the claimed duration tier (45
minutes above 8 hours) would give; and a break jitter of +5 minutes
changes the total to 9.42, so the break entering the total is
randomized, not deterministic. -/
theorem claim4_counterexample :
    (varyRecord recC4 0 0 0).total = some (19/2) ∧
    ¬((19 : ℚ)/2 = 10 - 45/60) ∧
    (varyRecord recC4 0 0 5).total = some (471/50) ∧
    ¬((471 : ℚ)/50 = 19/2) := by
  refine ⟨?_, ?_, ?_, ?_⟩ <;> with_unfolding_all decide

/-- C4 witness: the amended theorem applied to the concrete detailed
record with a break, under zero jitter. -/
theorem claim4_break_from_break_time_witness :
    (varyRecord recC4 0 0 0).break_time.isSome = true ∧
    (varyRecord recC4 0 0 0).total =
      some (calculateHours ((varyRecord recC4 0 0 0).start_time.getD "")
        ((varyRecord recC4 0 0 0).end_time.getD "")
        (timeToHours ((varyRecord recC4 0 0 0).break_time.getD ""))) :=
  claim4_break_from_break_time recC4 0 0 0 (by decide) (by decide) (by decide)
    (by decide)

/-- C5 (amended): keyword scoring classifies SIMPLE (detail-count
below 3, simple-count at least 2) only when the estimated column count
is also below 10: the code tests `column_count >= 10` at the same
priority as the detailed keywords, so a high column count overrides the
simple-keyword signal and yields DETAILED. -/
theorem claim5_simple_when_columns_small (raw : String)
    (hd : detailedCount (cleanText raw) < 3)
    (hs : 2 ≤ simpleCount (cleanText raw))
    (hc : estimateColumnCount (linesOf (cleanText raw)) < 10) :
    identifyTemplate raw = TemplateType.SIMPLE := by
  unfold identifyTemplate identifyTemplateCore
  dsimp only
  rw [if_neg (by omega :
    ¬(detailedCount (cleanText raw) ≥ 3 ∨
      estimateColumnCount (linesOf (cleanText raw)) ≥ 10))]
  rw [if_pos (Or.inl hs)]

set_option maxRecDepth 400000 in
/-- C5 counterexample: a text with two simple keywords, no detailed
keyword, and an estimated column count of 12 is classified DETAILED,
not SIMPLE. -/
theorem claim5_counterexample :
    identifyTemplate cx5Text = TemplateType.DETAILED ∧
    detailedCount (cleanText cx5Text) < 3 ∧
    2 ≤ simpleCount (cleanText cx5Text) := by
  refine ⟨?_, ?_, ?_⟩ <;> decide

set_option maxRecDepth 400000 in
/-- C5 witness: the amended theorem applied to a two-keyword text with
a small column count. -/
theorem claim5_simple_when_columns_small_witness :
    identifyTemplate w5Text = TemplateType.SIMPLE :=
  claim5_simple_when_columns_small w5Text (by decide) (by decide) (by decide)

/-- C6: row spacing is the most frequent 1-decimal-rounded gap between
consecutive distinct rounded span tops, defaulting to 14.0 when fewer
than two distinct tops exist; on tops {100, 114, 128, 142, 200} the
result is 14.0. -/
theorem claim6_row_spacing :
    (∀ spans : List Span,
      (sortedDistinct (spans.map (fun s => round1 s.y0))).length < 2 →
      calculateRowSpacing spans = 14) ∧
    (∀ spans : List Span,
      2 ≤ (sortedDistinct (spans.map (fun s => round1 s.y0))).length →
      calculateRowSpacing spans ∈ roundedGaps spans ∧
      ∀ g ∈ roundedGaps spans,
        (roundedGaps spans).count g ≤
          (roundedGaps spans).count (calculateRowSpacing spans)) ∧
    calculateRowSpacing c6Spans = 14 := by
  have hcalc : ∀ spans : List Span, ¬ spans.length < 2 →
      ¬ (sortedDistinct (spans.map (fun s => round1 s.y0))).length < 2 →
      calculateRowSpacing spans = (firstMode (roundedGaps spans)).getD 14 := by
    intro spans h1 h2
    unfold calculateRowSpacing roundedGaps
    rw [if_neg h1]
    dsimp only
    rw [if_neg h2]
  refine ⟨?_, ?_, ?_⟩
  · intro spans hlen
    unfold calculateRowSpacing
    split_ifs with h1
    · rfl
    · dsimp only
      rw [if_pos hlen]
  · intro spans hlen
    have hsp : ¬ spans.length < 2 := by
      have hle := sortedDistinct_length_le (spans.map (fun s => round1 s.y0))
      rw [List.length_map] at hle
      omega
    have hg : roundedGaps spans ≠ [] := by
      unfold roundedGaps
      intro hcon
      have hlg := congrArg List.length hcon
      rw [List.length_map, consecGaps_length] at hlg
      simp only [List.length_nil] at hlg
      omega
    obtain ⟨x, hx, hmem, hmax⟩ := firstMode_spec hg
    rw [hcalc spans hsp (by omega), hx]
    exact ⟨hmem, hmax⟩
  · with_unfolding_all decide

set_option maxRecDepth 400000 in
/-- C6 witness: the theorem applied to a one-span list (default) and to
the spec's example spans (membership of the modal gap). -/
theorem claim6_row_spacing_witness :
    calculateRowSpacing c6OneSpan = 14 ∧
    calculateRowSpacing c6Spans ∈ roundedGaps c6Spans :=
  ⟨claim6_row_spacing.1 c6OneSpan (by with_unfolding_all decide),
   (claim6_row_spacing.2.1 c6Spans (by with_unfolding_all decide)).1⟩

/-- C7 (amended): during metadata extraction a field is protected from
later matches only once it holds a truthy value (nonzero for the
numeric fields, nonempty for the company name); a field whose first
match produced 0.0 is treated as unset and can be overwritten by a
later line. -/
theorem claim7_truthy_first_match_wins (md : ReportMetadata)
    (lines : List String) (text : List Char) :
    (qTruthy md.total_hours = true →
      (extractMetadata md lines text).total_hours = md.total_hours) ∧
    (qTruthy md.total_salary = true →
      (extractMetadata md lines text).total_salary = md.total_salary) ∧
    (qTruthy md.hourly_rate = true →
      (extractMetadata md lines text).hourly_rate = md.hourly_rate) ∧
    (qTruthy md.required_hours = true →
      (extractMetadata md lines text).required_hours = md.required_hours) ∧
    (sTruthy md.company_name = true →
      (extractMetadata md lines text).company_name = md.company_name) := by
  unfold extractMetadata
  have hfold := foldl_lineStep_keeps (lines.take 25) md
  have hmy := extractMonthYear_keeps ((lines.take 25).foldl lineStep md) text
  exact ⟨fun h => (hmy.1).trans (hfold.1 h),
    fun h => (hmy.2.1).trans (hfold.2.1 h),
    fun h => (hmy.2.2.1).trans (hfold.2.2.1 h),
    fun h => (hmy.2.2.2.1).trans (hfold.2.2.2.1 h),
    fun h => (hmy.2.2.2.2).trans (hfold.2.2.2.2 h)⟩

set_option maxRecDepth 400000 in
/-- C7 counterexample: a first line sets total_hours to 0.0; a second
matching line then overwrites it to 5.5, although the field had been
set. -/
theorem claim7_counterexample :
    (extractMetadata emptyMetadata [c7line1] []).total_hours = some 0 ∧
    (extractMetadata emptyMetadata [c7line1, c7line2] []).total_hours =
      some (11/2) := by
  refine ⟨?_, ?_⟩ <;> with_unfolding_all decide

/-- C7 witness: the amended theorem applied to metadata whose five
fields hold truthy values, scanned over a matching line. -/
theorem claim7_truthy_first_match_wins_witness :
    (extractMetadata c7wMd [c7line2] []).total_hours = c7wMd.total_hours ∧
    (extractMetadata c7wMd [c7line2] []).total_salary = c7wMd.total_salary ∧
    (extractMetadata c7wMd [c7line2] []).hourly_rate = c7wMd.hourly_rate ∧
    (extractMetadata c7wMd [c7line2] []).required_hours =
      c7wMd.required_hours ∧
    (extractMetadata c7wMd [c7line2] []).company_name = c7wMd.company_name := by
  obtain ⟨h1, h2, h3, h4, h5⟩ := claim7_truthy_first_match_wins c7wMd [c7line2] []
  exact ⟨h1 (by decide), h2 (by decide), h3 (by decide), h4 (by decide),
    h5 (by decide)⟩

set_option maxRecDepth 400000 in
/-- C8: `_safe_float` is total and never propagates an error: the empty
string yields the documented default 0.0; otherwise commas and spaces
are removed and a string accepted by the float grammar yields its
value, while a malformed one yields 0.0.  Concretely, "1,2 3.5" gives
123.5 and "12a" gives 0.0. -/
theorem claim8_safe_float_total :
    (∀ s : String, s = "" → safeFloat s = 0) ∧
    (∀ (s : String) (q : ℚ),
      pyFloat (s.toList.filter (fun c => ¬(c = ',' ∨ c = ' '))) = some q →
      safeFloat s = q) ∧
    (∀ s : String,
      pyFloat (s.toList.filter (fun c => ¬(c = ',' ∨ c = ' '))) = none →
      safeFloat s = 0) ∧
    safeFloat "1,2 3.5" = 247/2 ∧
    safeFloat "12a" = 0 := by
  refine ⟨?_, ?_, ?_, ?_, ?_⟩
  · intro s h
    rw [h]
    rfl
  · intro s q h
    unfold safeFloat
    split_ifs with he
    · subst he
      rw [show pyFloat ((("" : String).toList).filter
          (fun c => ¬(c = ',' ∨ c = ' '))) = none from rfl] at h
      cases h
    · rw [h]
  · intro s h
    unfold safeFloat
    split_ifs with he
    · rfl
    · rw [h]
  · with_unfolding_all decide
  · with_unfolding_all decide

/-- C8 witness: the grammar arm of the theorem applied to a concrete
decimal string. -/
theorem claim8_safe_float_total_witness : safeFloat "3.5" = 7/2 :=
  claim8_safe_float_total.2.1 ("3.5") (7/2) (by with_unfolding_all decide)

set_option maxHeartbeats 1000000 in
/-- C9: every record produced by `AttendanceParser.parse` satisfies
`hours == total`, and the Variation Generator preserves the invariant:
when every input record satisfies it, so does every record of the
generator's output. -/
theorem claim9_hours_eq_total :
    (∀ (raw : String) (r : AttendanceRecord),
      r ∈ (parseReport raw).records → r.hours = r.total) ∧
    (∀ (rep : ParsedReport) (jf : Nat → ℤ × ℤ × ℤ),
      (∀ r ∈ rep.records, r.hours = r.total) →
      ∀ v ∈ (generateVariation rep jf).records, v.hours = v.total) := by
  constructor
  · intro raw r h
    have hrec : (parseReport raw).records =
        parseRecordsFor
          (identifyTemplateCore (cleanText raw) (linesOf (cleanText raw)))
          (linesOf (cleanText raw)) := rfl
    rw [hrec] at h
    exact parseRecordsFor_ht h
  · intro rep jf hin v hv
    have hrecs : (generateVariation rep jf).records =
        varyRecords jf 0 rep.records := by
      unfold generateVariation recalculateTotals
      split_ifs <;> rfl
    rw [hrecs] at hv
    obtain ⟨r0, hr0, k, hk⟩ := varyRecords_mem hv
    rw [hk]
    exact varyRecord_hours_eq_total (hin r0 hr0) _ _ _

set_option maxRecDepth 400000 in
set_option maxHeartbeats 2000000 in
/-- C9 witness: the theorem applied to a parsed simple report and to
its variation under zero jitter. -/
theorem claim9_hours_eq_total_witness :
    (w9Rec ∈ (parseReport w9Text).records ∧ w9Rec.hours = w9Rec.total) ∧
    (w9Varied ∈ (generateVariation w9Report jfZero).records ∧
      w9Varied.hours = w9Varied.total) := by
  constructor
  · have hmem : w9Rec ∈ (parseReport w9Text).records := by
      with_unfolding_all decide
    exact ⟨hmem, claim9_hours_eq_total.1 w9Text w9Rec hmem⟩
  · have hin : ∀ r ∈ w9Report.records, r.hours = r.total := by
      with_unfolding_all decide
    have hmem : w9Varied ∈ (generateVariation w9Report jfZero).records := by
      with_unfolding_all decide
    exact ⟨hmem, claim9_hours_eq_total.2 w9Report jfZero hin w9Varied hmem⟩

/-- C10 (amended): for every break_time string that parses and every
jitter, the varied break either re-serializes the original parsed time
(zero-padded HH:MM, value unchanged) or is an HH:MM time whose hour
component is at most 2: jitters pushing the break above two hours, or
wrapping it past midnight, are discarded in favor of the original
value. -/
theorem claim10_break_cap (s : String) (j : ℤ) (h m : Nat)
    (hp : parseHM s = some (h, m)) :
    varyBreakTime s j = formatHM h m ∨
      ((parseHM (varyBreakTime s j)).map Prod.fst).getD 3 ≤ 2 := by
  rcases varyBreakTime_cases j hp with h1 | ⟨h2, m2, he, hh2, hm2⟩
  · exact Or.inl h1
  · right
    rw [he, parseHM_formatHM (by omega) hm2]
    simpa using hh2

/-- C10 counterexample: the single-digit-hour input "8:05" parses, the
jittered value 08:06 has hour 8 above 2 and is discarded, but the
returned "08:05" is not equal to the input string and its hour exceeds
2, so neither arm of the claim as stated holds. -/
theorem claim10_counterexample :
    varyBreakTime "8:05" 1 = "08:05" ∧
    ¬(("08:05" : String) = "8:05") ∧
    (parseHM "08:05").map Prod.fst = some 8 ∧ ¬(8 ≤ 2) := by
  refine ⟨?_, ?_, ?_, ?_⟩ <;> decide

/-- C10 witness: the amended theorem applied to a parseable break time
and a small jitter. -/
theorem claim10_break_cap_witness :
    varyBreakTime "01:00" 5 = formatHM 1 0 ∨
      ((parseHM (varyBreakTime "01:00" 5)).map Prod.fst).getD 3 ≤ 2 :=
  claim10_break_cap ("01:00") 5 1 0 (by decide)

end WorkHours
